import Mathlib

/-!
A verification development for the `integrator` multi-provider streaming chat
application.  The definitions below are a shallow embedding of the core state
and operations of the source:

* `src/src/types/chat.ts` — the `Message` / `ChatSession` data model;
* `src/src/App.tsx` (the bundled `useChat` hook) — session-store operations
  (`addMessage`, `updateMessage`, `deleteSession`, `branchSession`,
  `sendMessage`, `regenerateFromMessage`), persistence helpers
  (`serializeSessions`, `deserializeSessions`, `loadSavedActiveSessionId`);
* `src/src/services/openaiService.ts` — the delta-throttling loop of
  `generateOpenAIStreamingResponse`;
* `src/src/utils/titleGenerator.ts` — `generateChatTitle` result handling.

Conventions of the embedding: JavaScript `Date` values are modelled as `Nat`
milliseconds; every `new Date()` executed during one operation is a `now`
parameter.  `uuidv4()` calls are modelled by a supply `fresh : Nat → String`,
the n-th value generated during the operation; uniqueness of UUIDs becomes an
explicit hypothesis where a claim needs it.  Asynchronous provider streams are
modelled by the finite list of text deltas the adapter yields, plus a flag
telling whether the stream ends in an error.  React `setState` updates are
applied in program order as pure state transformations.
-/

namespace Integrator

/-- Message roles, from `src/src/types/chat.ts`:
`type MessageRole = 'user' | 'model' | 'assistant'`. -/
inductive MessageRole where
  | user
  | model
  | assistant
  deriving DecidableEq, Repr

/-- Provider tags, from `src/src/types/chat.ts`:
`type ModelProvider = 'google' | 'openai' | 'xai' | 'deepseek'`. -/
inductive ModelProvider where
  | google
  | openai
  | xai
  | deepseek
  deriving DecidableEq, Repr

/-- The `Message` interface of `src/src/types/chat.ts`.  Optional fields are
`Option`; `timestamp: Date` is `Nat` milliseconds. -/
structure Message where
  id : String
  content : String
  role : MessageRole
  timestamp : Nat
  isLoading : Option Bool := none
  provider : Option ModelProvider := none
  modelName : Option String := none
  reasoningContent : Option String := none
  thinkingContent : Option String := none
  deriving DecidableEq, Repr

/-- The `ChatSession` interface of `src/src/types/chat.ts`. -/
structure ChatSession where
  id : String
  title : String
  messages : List Message
  createdAt : Nat
  updatedAt : Nat
  modelName : String
  provider : ModelProvider
  systemPrompt : String
  deriving DecidableEq, Repr

/-- The state owned by the `useChat` hook that the claims range over: the
session list and the active-session id (`sessions`, `activeSessionId`). -/
structure ChatState where
  sessions : List ChatSession
  activeId : String
  deriving DecidableEq, Repr

/-- JavaScript whitespace recognised by `String.prototype.trim` (the ASCII
part, which is all the repository ever feeds it). -/
def isJsWhitespace (c : Char) : Bool :=
  c == ' ' || c == '\t' || c == '\n' || c == '\r' || c == '\x0b' || c == '\x0c'

/-- JavaScript `s.trim()`. -/
def jsTrim (s : String) : String :=
  ⟨((s.data.dropWhile isJsWhitespace).reverse.dropWhile isJsWhitespace).reverse⟩

/-- JavaScript `s.slice(0, n)`. -/
def jsSlice (s : String) (n : Nat) : String :=
  ⟨s.data.take n⟩

/-- JavaScript `s.length` (code points; the sources only slice plain text). -/
def jsLength (s : String) : Nat :=
  s.data.length

/-- `DEFAULT_SYSTEM_PROMPT` of `src/src/App.tsx`. -/
def DEFAULT_SYSTEM_PROMPT : String :=
  "You are a helpful, accurate, and friendly AI assistant. You provide detailed and thoughtful responses to user queries while striving to be as accurate and unbiased as possible. When you don't know something or aren't sure, you admit it clearly rather than making something up. You can assist with a wide range of tasks including answering questions, providing explanations, generating creative content, and more."

/-- The `setSessions(prev => prev.map(session => session.id === activeSessionId
? { ...session, … } : session))` pattern that every mutation of `useChat`
uses: apply `f` to each session whose id is the active id. -/
def mapActive (st : ChatState) (f : ChatSession → ChatSession) : ChatState :=
  { st with sessions := st.sessions.map fun session =>
      if session.id = st.activeId then f session else session }

/-- Title given to a session by its first user message, from `addMessage` in
`src/src/App.tsx`: `content.slice(0, 30) + (content.length > 30 ? '...' : '')`. -/
def firstMessageTitle (content : String) : String :=
  jsSlice content 30 ++ (if 30 < jsLength content then "..." else "")

/-- The `newMessage` object literal of `addMessage` in `src/src/App.tsx`. -/
def newMessageOf (content : String) (role : MessageRole) (msgId : String)
    (now : Nat) : Message :=
  { id := msgId, content := content, role := role, timestamp := now }

/-- The per-session update of `addMessage` in `src/src/App.tsx`: append the
message, refresh `updatedAt`, and set the title from the first user message
when the session still bears the placeholder title. -/
def addMessageSessionUpdate (content : String) (role : MessageRole)
    (newMessage : Message) (now : Nat) (session : ChatSession) : ChatSession :=
  { session with
      messages := session.messages ++ [newMessage]
      updatedAt := now
      title :=
        if role = MessageRole.user ∧ session.title = "New Chat" ∧
            session.messages = [] then
          firstMessageTitle content
        else session.title }

/-- `addMessage` of `src/src/App.tsx` (lines 518-545): append a message to the
active session, updating the title on the first user message of a session
still called "New Chat"; returns the new message, or `none` when there is no
active session id. -/
def addMessage (st : ChatState) (content : String) (role : MessageRole)
    (msgId : String) (now : Nat) : ChatState × Option Message :=
  if st.activeId = "" then (st, none)
  else
    let newMessage := newMessageOf content role msgId now
    (mapActive st (addMessageSessionUpdate content role newMessage now),
      some newMessage)

/-- `updateMessage` of `src/src/App.tsx` (lines 547-563): replace the content
of the message with the given id in the active session and refresh
`updatedAt`. -/
def updateMessage (st : ChatState) (messageId : String) (content : String)
    (now : Nat) : ChatState :=
  if st.activeId = "" then st
  else
    mapActive st fun session =>
      { session with
          messages := session.messages.map fun msg =>
            if msg.id = messageId then { msg with content := content } else msg
          updatedAt := now }

/-- The fresh default session synthesized by `deleteSession` (and on first
load) in `src/src/App.tsx`. -/
def defaultSessionWith (freshId : String) (now : Nat) (defaultModel : String)
    (selectedProvider : ModelProvider) : ChatSession :=
  { id := freshId
    title := "New Chat"
    messages := []
    createdAt := now
    updatedAt := now
    modelName := defaultModel
    provider := selectedProvider
    systemPrompt := DEFAULT_SYSTEM_PROMPT }

/-- The `prev.filter(session => session.id !== sessionId)` step of
`deleteSession` in `src/src/App.tsx`. -/
def remainingAfterDelete (st : ChatState) (sessionId : String) : List ChatSession :=
  st.sessions.filter fun session => session.id ≠ sessionId

/-- `deleteSession` of `src/src/App.tsx` (lines 475-502): drop the session;
if it was active, promote the first remaining session, or synthesize a fresh
default session when none remain. -/
def deleteSession (st : ChatState) (sessionId : String) (fresh : Nat → String)
    (now : Nat) (defaultModel : String) (selectedProvider : ModelProvider) :
    ChatState :=
  let updatedSessions := remainingAfterDelete st sessionId
  if sessionId = st.activeId then
    match updatedSessions with
    | [] =>
        let newSession := defaultSessionWith (fresh 0) now defaultModel selectedProvider
        { sessions := [newSession], activeId := newSession.id }
    | first :: rest => { sessions := first :: rest, activeId := first.id }
  else { sessions := updatedSessions, activeId := st.activeId }

/-- `supportsSystemPrompt` of `src/src/App.tsx` (lines 186-194): every model
supports system prompts except those in the `nonSupportedModels` list. -/
def supportsSystemPrompt (modelName : String) (provider : ModelProvider) : Bool :=
  let nonSupportedModels : List String := ["gemini-1.5-flash-8b"]
  ! nonSupportedModels.contains modelName

/-- `getEffectiveSystemPrompt` of `src/src/App.tsx` (lines 196-201): `none`
(undefined) for models that do not support system prompts. -/
def getEffectiveSystemPrompt (modelName : String) (systemPrompt : String)
    (provider : ModelProvider) : Option String :=
  if supportsSystemPrompt modelName provider then some systemPrompt else none

/-- The provider-agnostic request `generateResponse` in `src/src/App.tsx`
hands to a provider service: the history, the once-per-request effective
system prompt, and the model/provider tags. -/
structure ProviderCall where
  history : List Message
  effectiveSystemPrompt : Option String
  modelName : String
  provider : ModelProvider
  deriving DecidableEq, Repr

/-- The request value built by `generateResponse` in `src/src/App.tsx` (lines
566-629): the effective system prompt is resolved exactly once, before any
provider service is invoked. -/
def generateResponseCall (history : List Message) (modelName : String)
    (provider : ModelProvider) (systemPrompt : String) : ProviderCall :=
  { history := history
    effectiveSystemPrompt := getEffectiveSystemPrompt modelName systemPrompt provider
    modelName := modelName
    provider := provider }

/-- A message in Gemini wire format, from `generateStreamingResponse` of the
Google service (bundled in `src/src/services/openaiService.ts`). -/
structure GeminiMessage where
  role : String
  text : String
  deriving DecidableEq, Repr

/-- Message formatting of the Google `generateStreamingResponse` (lines
329-341 of the bundled service file): map roles to `user`/`model`, then, when
a (truthy, i.e. present and non-empty) system prompt is given, unshift it as a
user turn prefixed with `System: `. -/
def geminiFormatMessages (messages : List Message) (systemPrompt : Option String) :
    List GeminiMessage :=
  let geminiMessages := messages.map fun msg =>
    { role := if msg.role = MessageRole.user then "user" else "model"
      text := msg.content : GeminiMessage }
  match systemPrompt with
  | some sp => if sp = "" then geminiMessages
      else { role := "user", text := "System: " ++ sp } :: geminiMessages
  | none => geminiMessages

/-- The empty placeholder assistant message appended by `sendMessage` and
`regenerateFromMessage` in `src/src/App.tsx`: role `model`, `isLoading:
true`, tagged with the session's provider and model. -/
def placeholderFor (session : ChatSession) (aiMessageId : String) (now : Nat) :
    Message :=
  { id := aiMessageId
    content := ""
    role := MessageRole.model
    timestamp := now
    isLoading := some true
    provider := some session.provider
    modelName := some session.modelName }

/-- The `setSessions` call that appends the placeholder assistant message to
the active session (both in `sendMessage` and in `regenerateFromMessage`). -/
def appendPlaceholder (st : ChatState) (aiMessageId : String) (now : Nat) :
    ChatState :=
  mapActive st fun session =>
    { session with
        messages := session.messages ++ [placeholderFor session aiMessageId now]
        updatedAt := now }

/-- One iteration of the streaming loop of `sendMessage` /
`regenerateFromMessage`: `fullResponse += chunk; updateMessage(aiMessageId,
fullResponse)`. -/
def streamStep (aiMessageId : String) (now : Nat) (acc : String × ChatState)
    (chunk : String) : String × ChatState :=
  let fullResponse := acc.1 ++ chunk
  (fullResponse, updateMessage acc.2 aiMessageId fullResponse now)

/-- The streaming loop body of `sendMessage` / `regenerateFromMessage`
applied for each delta in order.  Returns the accumulated response and the
state. -/
def streamDeltas (st : ChatState) (aiMessageId : String) (now : Nat)
    (deltas : List String) : String × ChatState :=
  deltas.foldl (streamStep aiMessageId now) ("", st)

/-- The user-facing fallback written into the placeholder when a generation
fails (`src/src/App.tsx`, error handler of `sendMessage` and
`regenerateFromMessage`). -/
def errorFallbackText : String :=
  "Sorry, there was an error generating a response. Please try again."

/-- The `setSessions` call on normal stream end: clear `isLoading` on the
placeholder and stamp the session's provider/model tags on it. -/
def finalizeStreaming (st : ChatState) (aiMessageId : String) (now : Nat) :
    ChatState :=
  mapActive st fun session =>
    { session with
        messages := session.messages.map fun msg =>
          if msg.id = aiMessageId then
            { msg with
                isLoading := some false
                provider := some session.provider
                modelName := some session.modelName }
          else msg
        updatedAt := now }

/-- The `setSessions` call in the error handler: overwrite the placeholder
content with the fallback text and clear `isLoading`. -/
def failStreaming (st : ChatState) (aiMessageId : String) (now : Nat) :
    ChatState :=
  mapActive st fun session =>
    { session with
        messages := session.messages.map fun msg =>
          if msg.id = aiMessageId then
            { msg with content := errorFallbackText, isLoading := some false }
          else msg
        updatedAt := now }

/-- `sendMessage` of `src/src/App.tsx` (lines 632-731), as a pure run over
the adapter outcome: reject blank input, append the user message, append the
placeholder, issue one generation request, stream the deltas into the
placeholder, then finalize (or fail, when the adapter errors).  Returns the
final state and the list of provider requests issued. -/
def sendMessage (st : ChatState) (content : String) (fresh : Nat → String)
    (now : Nat) (deltas : List String) (errored : Bool) :
    ChatState × List ProviderCall :=
  if jsTrim content = "" then (st, [])
  else
    match st.sessions.find? (fun s => s.id = st.activeId) with
    | none => (st, [])
    | some activeSession =>
      match addMessage st content MessageRole.user (fresh 0) now with
      | (st1, none) => (st1, [])
      | (st1, some userMessage) =>
        let aiMessageId := fresh 1
        let st2 := appendPlaceholder st1 aiMessageId now
        let call := generateResponseCall (activeSession.messages ++ [userMessage])
          activeSession.modelName activeSession.provider activeSession.systemPrompt
        let st3 := (streamDeltas st2 aiMessageId now deltas).2
        let st4 := if errored then failStreaming st3 aiMessageId now
          else finalizeStreaming st3 aiMessageId now
        (st4, [call])

/-- A concrete message used by the witnesses. -/
def exampleUserMessage : Message :=
  { id := "m-user-1", content := "Hello", role := MessageRole.user, timestamp := 1 }

/-- A concrete session used by the witnesses. -/
def exampleSession : ChatSession :=
  { id := "s1"
    title := "Example"
    messages := [exampleUserMessage]
    createdAt := 1
    updatedAt := 1
    modelName := "gemini-2.0-flash"
    provider := ModelProvider.google
    systemPrompt := "Be helpful" }

/-- A concrete state used by the witnesses. -/
def exampleState : ChatState :=
  { sessions := [exampleSession], activeId := "s1" }

/-- A concrete uuid supply used by the witnesses. -/
def exampleFresh (n : Nat) : String :=
  if n = 0 then "fresh-0" else if n = 1 then "fresh-1" else "fresh-x"

/-- Claim-side relation (C10): how a message must relate to its image under
`updateMessage` — only `content` may change, and only on an id match. -/
def MessagePatched (messageId content : String) (m mNew : Message) : Prop :=
  (m.id = messageId →
    mNew.id = m.id ∧ mNew.content = content ∧ mNew.role = m.role ∧
    mNew.timestamp = m.timestamp ∧ mNew.isLoading = m.isLoading ∧
    mNew.provider = m.provider ∧ mNew.modelName = m.modelName ∧
    mNew.reasoningContent = m.reasoningContent ∧
    mNew.thinkingContent = m.thinkingContent) ∧
  (m.id ≠ messageId → mNew = m)

/-- Claim-side relation (C10): how a session must relate to its image under
`updateMessage` — non-active sessions untouched, the active session keeps
every field except its patched message list and the refreshed `updatedAt`. -/
def SessionPatched (activeId messageId content : String) (now : Nat)
    (s sNew : ChatSession) : Prop :=
  (s.id ≠ activeId → sNew = s) ∧
  (s.id = activeId →
    sNew.id = s.id ∧ sNew.title = s.title ∧ sNew.createdAt = s.createdAt ∧
    sNew.modelName = s.modelName ∧ sNew.provider = s.provider ∧
    sNew.systemPrompt = s.systemPrompt ∧ sNew.updatedAt = now ∧
    List.Forall₂ (MessagePatched messageId content) s.messages sNew.messages ∧
    ((∀ m ∈ s.messages, m.id ≠ messageId) → sNew.messages = s.messages))

/-- The new-session object literal built by `branchSession` in
`src/src/App.tsx`: the prefix of the source messages strictly before the
cutoff index, each copy under a fresh uuid, with the source's model,
provider and system prompt. -/
def branchedSession (sourceSession : ChatSession) (messageIndex : Nat)
    (fresh : Nat → String) (now : Nat) : ChatSession :=
  { id := fresh 0
    title := "Branched from " ++ jsSlice sourceSession.title 20 ++ "..."
    messages := (sourceSession.messages.take messageIndex).mapIdx
      fun j msg => { msg with id := fresh (j + 1) }
    createdAt := now
    updatedAt := now
    modelName := sourceSession.modelName
    provider := sourceSession.provider
    systemPrompt := sourceSession.systemPrompt }

/-- `branchSession` of `src/src/App.tsx` (lines 446-473): copy the source
session's messages strictly before the cutoff message, giving each copy a
fresh uuid, into a new session that becomes active; `null` (and no state
change) when the source session or the message is not found. -/
def branchSession (st : ChatState) (sessionId : String) (messageId : String)
    (fresh : Nat → String) (now : Nat) : Option ChatSession × ChatState :=
  match st.sessions.find? (fun s => s.id = sessionId) with
  | none => (none, st)
  | some sourceSession =>
    match sourceSession.messages.findIdx? (fun msg => msg.id = messageId) with
    | none => (none, st)
    | some messageIndex =>
      let newSession := branchedSession sourceSession messageIndex fresh now
      (some newSession, { sessions := st.sessions ++ [newSession], activeId := newSession.id })

/-- Claim-side relation (C4): an indexed original message versus its copy in
the branched session — a fresh id (distinct from the original's whenever the
uuid supply avoids the original ids), all other fields equal. -/
def BranchedCopy (fresh : Nat → String) (p : Nat × Message) (c : Message) : Prop :=
  c.id = fresh (p.1 + 1) ∧
  (fresh (p.1 + 1) ≠ p.2.id → c.id ≠ p.2.id) ∧
  c.content = p.2.content ∧ c.role = p.2.role ∧ c.timestamp = p.2.timestamp ∧
  c.isLoading = p.2.isLoading ∧ c.provider = p.2.provider ∧
  c.modelName = p.2.modelName ∧ c.reasoningContent = p.2.reasoningContent ∧
  c.thinkingContent = p.2.thinkingContent

/-- A second concrete message for the branch witness. -/
def exampleAssistantMessage : Message :=
  { id := "m-assistant-1", content := "Hi there", role := MessageRole.model,
    timestamp := 2, provider := some ModelProvider.google,
    modelName := some "gemini-2.0-flash" }

/-- A concrete two-message session for the branch witness. -/
def exampleSession2 : ChatSession :=
  { id := "s2"
    title := "Branch me"
    messages := [exampleUserMessage, exampleAssistantMessage]
    createdAt := 1
    updatedAt := 2
    modelName := "gemini-2.0-flash"
    provider := ModelProvider.google
    systemPrompt := "Be terse" }

/-- A concrete state with two sessions for the branch witness. -/
def exampleState2 : ChatState :=
  { sessions := [exampleSession, exampleSession2], activeId := "s2" }

/-- Decimal digit to its character, for the persisted timestamp text. -/
def digitToChar (d : Nat) : Char :=
  match d with
  | 0 => '0' | 1 => '1' | 2 => '2' | 3 => '3' | 4 => '4'
  | 5 => '5' | 6 => '6' | 7 => '7' | 8 => '8' | _ => '9'

/-- Character back to its decimal digit. -/
def charToDigit (c : Char) : Nat :=
  match c with
  | '0' => 0 | '1' => 1 | '2' => 2 | '3' => 3 | '4' => 4
  | '5' => 5 | '6' => 6 | '7' => 7 | '8' => 8 | _ => 9

/-- Little-endian decimal digits of `n` (fuel-structured so it evaluates in
the kernel); fuel `n + 1` always suffices. -/
def natDigitsRevFuel : Nat → Nat → List Char
  | 0, _ => []
  | fuel + 1, n =>
      if n < 10 then [digitToChar n]
      else digitToChar (n % 10) :: natDigitsRevFuel fuel (n / 10)

/-- The round-trippable textual form of a `Date` in the persisted JSON
(`Date.toJSON` serializes to an ISO digit string; the embedding keeps the
millisecond count in decimal). -/
def encodeDate (n : Nat) : String :=
  ⟨(natDigitsRevFuel (n + 1) n).reverse⟩

/-- Value of a big-endian decimal digit list. -/
def decodeDigits (cs : List Char) : Nat :=
  cs.foldl (fun acc c => 10 * acc + charToDigit c) 0

/-- `new Date(text)` on a persisted timestamp: parse the decimal text back
to milliseconds. -/
def decodeDate (s : String) : Nat :=
  decodeDigits s.data

/-- A message as it sits in the persisted JSON: like `Message` but with the
timestamp in textual form (optional fields may be absent in legacy records). -/
structure SerializedMessage where
  id : String
  content : String
  role : MessageRole
  timestamp : String
  isLoading : Option Bool := none
  provider : Option ModelProvider := none
  modelName : Option String := none
  reasoningContent : Option String := none
  thinkingContent : Option String := none
  deriving DecidableEq, Repr

/-- A session as it sits in the persisted JSON: textual timestamps and an
optional `provider` (absent in legacy records, defaulted on load). -/
structure SerializedSession where
  id : String
  title : String
  messages : List SerializedMessage
  createdAt : String
  updatedAt : String
  modelName : String
  provider : Option ModelProvider := none
  systemPrompt : String
  deriving DecidableEq, Repr

/-- `JSON.stringify` applied to one in-memory message (`serializeSessions`
in `src/src/App.tsx`; `Date` fields become their textual form). -/
def serializeMessage (msg : Message) : SerializedMessage :=
  { id := msg.id
    content := msg.content
    role := msg.role
    timestamp := encodeDate msg.timestamp
    isLoading := msg.isLoading
    provider := msg.provider
    modelName := msg.modelName
    reasoningContent := msg.reasoningContent
    thinkingContent := msg.thinkingContent }

/-- `JSON.stringify` applied to one in-memory session. -/
def serializeSession (session : ChatSession) : SerializedSession :=
  { id := session.id
    title := session.title
    messages := session.messages.map serializeMessage
    createdAt := encodeDate session.createdAt
    updatedAt := encodeDate session.updatedAt
    modelName := session.modelName
    provider := some session.provider
    systemPrompt := session.systemPrompt }

/-- `serializeSessions` of `src/src/App.tsx` (line 160-162). -/
def serializeSessions (sessions : List ChatSession) : List SerializedSession :=
  sessions.map serializeSession

/-- The per-message part of `deserializeSessions`: spread the record and
re-parse the timestamp (`timestamp: new Date(msg.timestamp)`). -/
def deserializeMessage (msg : SerializedMessage) : Message :=
  { id := msg.id
    content := msg.content
    role := msg.role
    timestamp := decodeDate msg.timestamp
    isLoading := msg.isLoading
    provider := msg.provider
    modelName := msg.modelName
    reasoningContent := msg.reasoningContent
    thinkingContent := msg.thinkingContent }

/-- `deserializeSessions` of `src/src/App.tsx` (lines 165-183): re-parse the
`Date` fields and default a missing `provider` to `'google'` for backward
compatibility. -/
def deserializeSessions (data : List SerializedSession) : List ChatSession :=
  data.map fun session =>
    { id := session.id
      title := session.title
      messages := session.messages.map deserializeMessage
      createdAt := decodeDate session.createdAt
      updatedAt := decodeDate session.updatedAt
      modelName := session.modelName
      provider := session.provider.getD ModelProvider.google
      systemPrompt := session.systemPrompt }

/-- `loadSavedActiveSessionId` of `src/src/App.tsx` (lines 278-284): the
saved id when it is non-empty and references a loaded session, otherwise the
first session's id.  (The source indexes `sessions[0]` and is only called
with a non-empty list; the empty case is modelled as `""`.) -/
def loadSavedActiveSessionId (savedActiveSessionId : Option String)
    (sessions : List ChatSession) : String :=
  match savedActiveSessionId with
  | some saved =>
      if saved ≠ "" ∧ sessions.any (fun session => session.id = saved) then saved
      else
        match sessions with
        | [] => ""
        | first :: _ => first.id
  | none =>
      match sessions with
      | [] => ""
      | first :: _ => first.id

/-- Concatenation of a delta sequence, in order. -/
def textConcat : List String → String
  | [] => ""
  | d :: ds => d ++ textConcat ds

/-- The final message the placeholder becomes on normal stream end. -/
def completedPlaceholder (session : ChatSession) (aiMessageId : String)
    (now : Nat) (deltas : List String) : Message :=
  { id := aiMessageId
    content := textConcat deltas
    role := MessageRole.model
    timestamp := now
    isLoading := some false
    provider := some session.provider
    modelName := some session.modelName }

/-- The final message the placeholder becomes when the stream errors. -/
def failedPlaceholder (session : ChatSession) (aiMessageId : String)
    (now : Nat) : Message :=
  { id := aiMessageId
    content := errorFallbackText
    role := MessageRole.model
    timestamp := now
    isLoading := some false
    provider := some session.provider
    modelName := some session.modelName }

/-- The session after `addMessage` has appended the user turn. -/
def sessionAfterUserAppend (active : ChatSession) (content : String)
    (userId : String) (now : Nat) : ChatSession :=
  addMessageSessionUpdate content MessageRole.user
    (newMessageOf content MessageRole.user userId now) now active

/-- A fresh, empty default-titled session for counterexample runs. -/
def exampleEmptySession : ChatSession :=
  { id := "s3"
    title := "New Chat"
    messages := []
    createdAt := 0
    updatedAt := 0
    modelName := "gpt-4o"
    provider := ModelProvider.openai
    systemPrompt := "" }

/-- A state holding only the fresh session, used by counterexample runs. -/
def exampleState3 : ChatState :=
  { sessions := [exampleEmptySession], activeId := "s3" }

/-- A fresh session on the one model that does not support system prompts,
with a non-empty system prompt. -/
def exampleSession8b : ChatSession :=
  { id := "s8b"
    title := "New Chat"
    messages := []
    createdAt := 0
    updatedAt := 0
    modelName := "gemini-1.5-flash-8b"
    provider := ModelProvider.google
    systemPrompt := "Be terse" }

/-- A state holding only the non-supporting-model session. -/
def exampleState8b : ChatState :=
  { sessions := [exampleSession8b], activeId := "s8b" }

/-- The `updatedMessages` array of `regenerateFromMessage` in
`src/src/App.tsx`: the message at the edited index with its content
replaced, all others untouched. -/
def editedMessages (messages : List Message) (messageIndex : Nat)
    (newContent : String) : List Message :=
  messages.mapIdx fun idx msg =>
    if idx = messageIndex then { msg with content := newContent } else msg

/-- `regenerateFromMessage` of `src/src/App.tsx` (lines 734-854): edit the
message content in place, drop every later non-user message (keeping later
user messages), and — when the edited message is a user turn — run one
generation into one fresh placeholder, exactly as `sendMessage` does. -/
def regenerateFromMessage (st : ChatState) (messageId : String)
    (newContent : String) (fresh : Nat → String) (now : Nat)
    (deltas : List String) (errored : Bool) : ChatState × List ProviderCall :=
  if st.activeId = "" then (st, [])
  else
    match st.sessions.find? (fun s => s.id = st.activeId) with
    | none => (st, [])
    | some activeSession =>
      match activeSession.messages.findIdx? (fun msg => msg.id = messageId) with
      | none => (st, [])
      | some messageIndex =>
        let updatedMessages := editedMessages activeSession.messages messageIndex newContent
        let currentSession := { activeSession with
          messages := (updatedMessages.enum.filter fun p =>
            p.1 ≤ messageIndex ∨ (messageIndex < p.1 ∧ p.2.role = MessageRole.user)).map
              Prod.snd }
        let st1 := { st with sessions := st.sessions.map fun session =>
          if session.id = st.activeId then currentSession else session }
        match updatedMessages[messageIndex]? with
        | none => (st1, [])
        | some editedMessage =>
          if editedMessage.role = MessageRole.user then
            let aiMessageId := fresh 0
            let st2 := appendPlaceholder st1 aiMessageId now
            let call := generateResponseCall currentSession.messages
              currentSession.modelName currentSession.provider currentSession.systemPrompt
            let st3 := (streamDeltas st2 aiMessageId now deltas).2
            let st4 := if errored then failStreaming st3 aiMessageId now
              else finalizeStreaming st3 aiMessageId now
            (st4, [call])
          else (st1, [])

/-- The truncated message list of `regenerateFromMessage`, in take/drop
form: the content-edited prefix through the edited index, then only the
user messages that follow. -/
def truncatedMessages (messages : List Message) (messageIndex : Nat)
    (newContent : String) : List Message :=
  (editedMessages messages messageIndex newContent).take (messageIndex + 1) ++
    ((editedMessages messages messageIndex newContent).drop (messageIndex + 1)).filter
      (fun msg => msg.role = MessageRole.user)

/-- The four-message session of the C3 scenario: user, assistant, user,
assistant. -/
def exampleFourSession : ChatSession :=
  { id := "s4"
    title := "Four"
    messages :=
      [{ id := "u1", content := "first question", role := MessageRole.user, timestamp := 1 },
       { id := "a1", content := "first answer", role := MessageRole.model, timestamp := 2 },
       { id := "u2", content := "second question", role := MessageRole.user, timestamp := 3 },
       { id := "a2", content := "second answer", role := MessageRole.model, timestamp := 4 }]
    createdAt := 1
    updatedAt := 4
    modelName := "gemini-2.0-flash"
    provider := ModelProvider.google
    systemPrompt := "Be helpful" }

/-- A state holding only the four-message session. -/
def exampleState4 : ChatState :=
  { sessions := [exampleFourSession], activeId := "s4" }

/-- The fixed system prompt of `src/src/utils/titleGenerator.ts`. -/
def TITLE_GENERATOR_SYSTEM_PROMPT : String :=
  "You are a highly efficient chat title generator. Your only job is to create a brief, relevant title (maximum 5 words) based on the first message exchange in a conversation. Be concise and capture the essence. Respond ONLY with the title, nothing else. Prefer shorter titles over longer ones. Do not use quotes or punctuation."

/-- `generateChatTitle` of `src/src/utils/titleGenerator.ts` (lines 10-29),
as a function of the LLM call outcome: on any thrown error the fallback
"New Chat"; on success `completion.choices[0]?.message?.content?.trim() ||
'New Chat'` (absent or all-whitespace content also falls back). -/
def generateChatTitle (outcome : Except Unit (Option String)) : String :=
  match outcome with
  | Except.error _ => "New Chat"
  | Except.ok content =>
      match content with
      | none => "New Chat"
      | some text => if jsTrim text = "" then "New Chat" else jsTrim text

/-- Mutable locals of the streaming loop of
`generateOpenAIStreamingResponse` in `src/src/services/openaiService.ts`:
`pendingChunks`, `bufferText`, `lastRenderTime`, plus the texts passed to
`onChunk` so far. -/
structure ThrottleState where
  pendingChunks : List String
  bufferText : String
  lastRenderTime : Nat
  emitted : List String
  deriving DecidableEq, Repr

/-- One event seen by the streaming loop: a provider delta (with the
`Date.now()` value at its processing) or an animation-frame callback firing
between awaits. -/
inductive ThrottleEv where
  | delta (content : String) (time : Nat)
  | frame
  deriving DecidableEq, Repr

/-- `streamingOptions?.renderInterval || 5`: an absent — or zero, since `||`
tests falsiness — interval defaults to 5 ms. -/
def renderIntervalOf (renderInterval : Option Nat) : Nat :=
  match renderInterval with
  | none => 5
  | some 0 => 5
  | some r => r

/-- One event of the streaming loop of `generateOpenAIStreamingResponse`
(lines 92-145): an animation frame flushes `pendingChunks` (when non-empty);
a delta with empty content is skipped; under the animation-frame policy a
delta is buffered; otherwise the delta is appended to `bufferText` and, for
intervals at most 15 ms, emitted immediately, while for larger intervals the
whole buffer is flushed once the interval has elapsed since the last
flush. -/
def throttleStep (useAnimationFrame : Bool) (renderInterval : Nat)
    (st : ThrottleState) : ThrottleEv → ThrottleState
  | ThrottleEv.frame =>
      if useAnimationFrame then
        if st.pendingChunks ≠ [] then
          { st with
              pendingChunks := []
              emitted := st.emitted ++ [textConcat st.pendingChunks] }
        else st
      else st
  | ThrottleEv.delta content time =>
      if content = "" then st
      else if useAnimationFrame then
        { st with pendingChunks := st.pendingChunks ++ [content] }
      else
        let st1 := { st with bufferText := st.bufferText ++ content }
        if renderInterval ≤ 15 then
          { st1 with emitted := st1.emitted ++ [content] }
        else if st1.lastRenderTime + renderInterval < time then
          if st1.bufferText ≠ "" then
            { st1 with
                emitted := st1.emitted ++ [st1.bufferText]
                bufferText := ""
                lastRenderTime := time }
          else st1
        else st1

/-- The delivery behaviour of `generateOpenAIStreamingResponse`
(`src/src/services/openaiService.ts`, lines 69-173): the texts passed to
`onChunk`, in order, for a given render interval, stream-opening time, and
interleaving of deltas and animation frames.  After the stream ends, the
animation-frame path flushes any pending chunks
(`cancelAnimationFrame` having stopped further frames), and the interval
path flushes any remaining `bufferText`. -/
def generateOpenAIStreamingResponse (renderInterval : Option Nat)
    (startTime : Nat) (trace : List ThrottleEv) : List String :=
  let ri := renderIntervalOf renderInterval
  let useAnimationFrame : Bool := decide (ri ≤ 5)
  let final := trace.foldl (throttleStep useAnimationFrame ri)
    { pendingChunks := [], bufferText := "", lastRenderTime := startTime, emitted := [] }
  if useAnimationFrame then
    if final.pendingChunks ≠ [] then final.emitted ++ [textConcat final.pendingChunks]
    else final.emitted
  else
    if final.bufferText ≠ "" then final.emitted ++ [final.bufferText]
    else final.emitted

/-- The provider deltas of a trace, in order. -/
def traceDeltas (trace : List ThrottleEv) : List String :=
  trace.filterMap fun ev =>
    match ev with
    | ThrottleEv.delta content _ => some content
    | ThrottleEv.frame => none

/-- C7: sendMessage on empty or whitespace-only input is a no-op that is not
an error — the state is returned unchanged (no message appended, no title or
updatedAt change) and no provider call is issued. -/
theorem sendMessage_blank_noop (st : ChatState) (content : String)
    (fresh : Nat → String) (now : Nat) (deltas : List String) (errored : Bool)
    (h : jsTrim content = "") :
    sendMessage st content fresh now deltas errored = (st, []) := by
  simp [sendMessage, h]

/-- Witness for C7: the whitespace-only input "   " is rejected without any
state change or provider call. -/
theorem sendMessage_blank_noop_witness :
    jsTrim "   " = "" ∧
      sendMessage exampleState "   " exampleFresh 5 ["x"] false = (exampleState, []) :=
  ⟨by decide, sendMessage_blank_noop exampleState "   " exampleFresh 5 ["x"] false (by decide)⟩

/-- C5: deleteSession never leaves a non-empty collection without a valid
active id.  On a reachable state (non-empty sessions, active id a member):
deleting a non-active session keeps the active id; deleting the active
session promotes the first remaining session; deleting the last session
yields exactly one fresh default session whose id is the active id. -/
theorem deleteSession_keeps_valid_active (st : ChatState) (sessionId : String)
    (fresh : Nat → String) (now : Nat) (defaultModel : String)
    (selectedProvider : ModelProvider)
    (hmem : st.activeId ∈ st.sessions.map ChatSession.id) :
    (deleteSession st sessionId fresh now defaultModel selectedProvider).sessions ≠ [] ∧
    (deleteSession st sessionId fresh now defaultModel selectedProvider).activeId ∈
      (deleteSession st sessionId fresh now defaultModel selectedProvider).sessions.map ChatSession.id ∧
    (sessionId ≠ st.activeId →
      (deleteSession st sessionId fresh now defaultModel selectedProvider).activeId = st.activeId) ∧
    (sessionId = st.activeId →
      ∀ first rest, remainingAfterDelete st sessionId = first :: rest →
        (deleteSession st sessionId fresh now defaultModel selectedProvider).activeId = first.id) ∧
    (sessionId = st.activeId →
      remainingAfterDelete st sessionId = [] →
      deleteSession st sessionId fresh now defaultModel selectedProvider =
        { sessions := [defaultSessionWith (fresh 0) now defaultModel selectedProvider]
          activeId := fresh 0 }) := by
  obtain ⟨s, hs, hsid⟩ := List.mem_map.mp hmem
  by_cases hact : sessionId = st.activeId
  · subst hact
    cases hfilter : remainingAfterDelete st st.activeId with
    | nil =>
        refine ⟨?_, ?_, ?_, ?_, ?_⟩
        · simp [deleteSession, hfilter]
        · simp [deleteSession, hfilter, defaultSessionWith]
        · intro hne; exact absurd rfl hne
        · intro _ first rest hcons; simp at hcons
        · intro _ _; simp [deleteSession, hfilter, defaultSessionWith]
    | cons first rest =>
        refine ⟨?_, ?_, ?_, ?_, ?_⟩
        · simp [deleteSession, hfilter]
        · simp only [deleteSession, hfilter]
          exact List.mem_map.mpr ⟨first, List.mem_cons_self first rest, rfl⟩
        · intro hne; exact absurd rfl hne
        · intro _ f r hcons
          cases hcons
          simp [deleteSession, hfilter]
        · intro _ hnil; simp at hnil
  · have hneq : s.id ≠ sessionId := fun hcontra => hact (hcontra ▸ hsid)
    have hkeep : s ∈ remainingAfterDelete st sessionId := by
      unfold remainingAfterDelete
      refine List.mem_filter.mpr ⟨hs, ?_⟩
      simp [hneq]
    refine ⟨?_, ?_, ?_, ?_, ?_⟩
    · simp only [deleteSession, if_neg hact]
      intro hnil
      rw [hnil] at hkeep
      exact (List.not_mem_nil s) hkeep
    · simp only [deleteSession, if_neg hact]
      exact List.mem_map.mpr ⟨s, hkeep, hsid⟩
    · intro _; simp [deleteSession, hact]
    · intro heq; exact absurd heq hact
    · intro heq; exact absurd heq hact

/-- Witness for C5: deleting the active (and only) session of the example
state yields the fresh default singleton with a valid active pointer. -/
theorem deleteSession_keeps_valid_active_witness :
    exampleState.activeId ∈ exampleState.sessions.map ChatSession.id ∧
    ((deleteSession exampleState "s1" exampleFresh 7 "gemini-2.0-flash" ModelProvider.google).sessions ≠ [] ∧
     (deleteSession exampleState "s1" exampleFresh 7 "gemini-2.0-flash" ModelProvider.google).activeId ∈
       (deleteSession exampleState "s1" exampleFresh 7 "gemini-2.0-flash" ModelProvider.google).sessions.map ChatSession.id ∧
     ("s1" ≠ exampleState.activeId →
       (deleteSession exampleState "s1" exampleFresh 7 "gemini-2.0-flash" ModelProvider.google).activeId = exampleState.activeId) ∧
     ("s1" = exampleState.activeId →
       ∀ first rest, remainingAfterDelete exampleState "s1" = first :: rest →
         (deleteSession exampleState "s1" exampleFresh 7 "gemini-2.0-flash" ModelProvider.google).activeId = first.id) ∧
     ("s1" = exampleState.activeId →
       remainingAfterDelete exampleState "s1" = [] →
       deleteSession exampleState "s1" exampleFresh 7 "gemini-2.0-flash" ModelProvider.google =
         { sessions := [defaultSessionWith (exampleFresh 0) 7 "gemini-2.0-flash" ModelProvider.google]
           activeId := exampleFresh 0 })) :=
  ⟨by decide,
   deleteSession_keeps_valid_active exampleState "s1" exampleFresh 7
     "gemini-2.0-flash" ModelProvider.google (by decide)⟩

/-- Pointwise description of a `List.map`: each element relates to its image. -/
theorem forall₂_map_right_of_mem {α β : Type} (l : List α) (g : α → β)
    (P : α → β → Prop) (h : ∀ a ∈ l, P a (g a)) :
    List.Forall₂ P l (l.map g) := by
  induction l with
  | nil => exact List.Forall₂.nil
  | cons x xs ih =>
      exact List.Forall₂.cons (h x (List.mem_cons_self x xs))
        (ih fun a ha => h a (List.mem_cons_of_mem x ha))

/-- C10: updateMessage only replaces the content of the matching message in
the active session (refreshing that session's updatedAt); every other field
of the message, every other message, and every other session are unchanged,
and an absent messageId leaves the message list unchanged. -/
theorem updateMessage_frame (st : ChatState) (messageId content : String)
    (now : Nat) (h : st.activeId ≠ "") :
    (updateMessage st messageId content now).activeId = st.activeId ∧
    List.Forall₂ (SessionPatched st.activeId messageId content now)
      st.sessions (updateMessage st messageId content now).sessions := by
  simp only [updateMessage, if_neg h, mapActive]
  refine ⟨trivial, ?_⟩
  apply forall₂_map_right_of_mem
  intro s _
  by_cases hsid : s.id = st.activeId
  · refine ⟨fun hne => absurd hsid hne, fun _ => ?_⟩
    simp only [if_pos hsid]
    refine ⟨by simp, by simp, by simp, by simp, by simp, by simp, by simp, ?_, ?_⟩
    · apply forall₂_map_right_of_mem
      intro m _
      constructor
      · intro hmid
        simp [if_pos hmid]
      · intro hmid
        simp only [if_neg hmid]
    · intro habsent
      have : ∀ m ∈ s.messages,
          (if m.id = messageId then { m with content := content } else m) = m := by
        intro m hm
        simp [habsent m hm]
      rw [List.map_congr_left this]
      simp
  · exact ⟨fun _ => by simp only [if_neg hsid], fun heq => absurd heq hsid⟩

/-- Witness for C10: editing the one message of the example state. -/
theorem updateMessage_frame_witness :
    exampleState.activeId ≠ "" ∧
    ((updateMessage exampleState "m-user-1" "edited" 9).activeId = exampleState.activeId ∧
     List.Forall₂ (SessionPatched exampleState.activeId "m-user-1" "edited" 9)
       exampleState.sessions (updateMessage exampleState "m-user-1" "edited" 9).sessions) :=
  ⟨by decide, updateMessage_frame exampleState "m-user-1" "edited" 9 (by decide)⟩

/-- C4: branchSession returns a new session holding exactly the prefix of
the source strictly before the cutoff message, each copy under a fresh id
(distinct from the original whenever uuids do not collide) with all other
fields equal, copying modelName/provider/systemPrompt; a missing source
session or cutoff message returns null and leaves the collection unchanged. -/
theorem branchSession_spec (st : ChatState) (sessionId messageId : String)
    (fresh : Nat → String) (now : Nat) :
    (st.sessions.find? (fun s => s.id = sessionId) = none →
      branchSession st sessionId messageId fresh now = (none, st)) ∧
    (∀ src, st.sessions.find? (fun s => s.id = sessionId) = some src →
      src.messages.findIdx? (fun msg => msg.id = messageId) = none →
      branchSession st sessionId messageId fresh now = (none, st)) ∧
    (∀ src i, st.sessions.find? (fun s => s.id = sessionId) = some src →
      src.messages.findIdx? (fun msg => msg.id = messageId) = some i →
      ∃ ns, branchSession st sessionId messageId fresh now =
          (some ns, { sessions := st.sessions ++ [ns], activeId := ns.id }) ∧
        ns.modelName = src.modelName ∧
        ns.provider = src.provider ∧
        ns.systemPrompt = src.systemPrompt ∧
        ns.messages.length = (src.messages.take i).length ∧
        List.Forall₂ (BranchedCopy fresh) (src.messages.take i).enum ns.messages) := by
  refine ⟨?_, ?_, ?_⟩
  · intro hfind
    simp [branchSession, hfind]
  · intro src hfind hidx
    simp [branchSession, hfind, hidx]
  · intro src i hfind hidx
    refine ⟨branchedSession src i fresh now, ?_, rfl, rfl, rfl, ?_, ?_⟩
    · simp [branchSession, hfind, hidx]
    · simp [branchedSession, List.length_mapIdx]
    · simp only [branchedSession]
      rw [List.mapIdx_eq_enum_map]
      apply forall₂_map_right_of_mem
      intro p _
      exact ⟨rfl, fun hne => hne, rfl, rfl, rfl, rfl, rfl, rfl, rfl, rfl⟩

/-- Witness for C4: branching the two-message session at its second message
copies exactly the one-message prefix under a fresh id. -/
theorem branchSession_spec_witness :
    exampleState2.sessions.find? (fun s => s.id = "s2") = some exampleSession2 ∧
    exampleSession2.messages.findIdx? (fun msg => msg.id = "m-assistant-1") = some 1 ∧
    (∃ ns, branchSession exampleState2 "s2" "m-assistant-1" exampleFresh 9 =
        (some ns, { sessions := exampleState2.sessions ++ [ns], activeId := ns.id }) ∧
      ns.modelName = exampleSession2.modelName ∧
      ns.provider = exampleSession2.provider ∧
      ns.systemPrompt = exampleSession2.systemPrompt ∧
      ns.messages.length = (exampleSession2.messages.take 1).length ∧
      List.Forall₂ (BranchedCopy exampleFresh) (exampleSession2.messages.take 1).enum ns.messages) :=
  ⟨by decide, by decide,
   (branchSession_spec exampleState2 "s2" "m-assistant-1" exampleFresh 9).2.2
     exampleSession2 1 (by decide) (by decide)⟩

theorem charToDigit_digitToChar {d : Nat} (h : d < 10) :
    charToDigit (digitToChar d) = d := by
  interval_cases d <;> rfl

theorem decodeDigits_append (xs : List Char) (c : Char) :
    decodeDigits (xs ++ [c]) = 10 * decodeDigits xs + charToDigit c := by
  simp [decodeDigits, List.foldl_append]

theorem decodeDigits_natDigitsRevFuel :
    ∀ fuel n, n < fuel → decodeDigits (natDigitsRevFuel fuel n).reverse = n := by
  intro fuel
  induction fuel with
  | zero => intro n h; omega
  | succ fuel ih =>
      intro n h
      by_cases h10 : n < 10
      · simp [natDigitsRevFuel, h10, decodeDigits, charToDigit_digitToChar h10]
      · have hdiv : n / 10 < fuel := by
          have := Nat.div_lt_self (by omega : 0 < n) (by omega : 1 < 10)
          omega
        simp only [natDigitsRevFuel, if_neg h10, List.reverse_cons]
        rw [decodeDigits_append, ih _ hdiv,
          charToDigit_digitToChar (Nat.mod_lt n (by omega))]
        omega

/-- The persisted decimal timestamp text round-trips exactly. -/
theorem decodeDate_encodeDate (n : Nat) : decodeDate (encodeDate n) = n := by
  simpa [decodeDate, encodeDate] using
    decodeDigits_natDigitsRevFuel (n + 1) n (Nat.lt_succ_self n)

/-- C8: persisting a session collection and the active id, then loading them
back, reproduces equal sessions (timestamps and message fields included) and
the same active id, which references a loaded session; a legacy record with
no provider field is defaulted to google on load instead of failing. -/
theorem persistence_round_trip (sessions : List ChatSession) (activeId : String)
    (hmem : activeId ∈ sessions.map ChatSession.id) (hid : activeId ≠ "") :
    deserializeSessions (serializeSessions sessions) = sessions ∧
    loadSavedActiveSessionId (some activeId)
      (deserializeSessions (serializeSessions sessions)) = activeId ∧
    loadSavedActiveSessionId (some activeId)
        (deserializeSessions (serializeSessions sessions)) ∈
      (deserializeSessions (serializeSessions sessions)).map ChatSession.id ∧
    (∀ record : SerializedSession, record.provider = none →
      ∀ s ∈ deserializeSessions [record], s.provider = ModelProvider.google) := by
  have hmsg : ∀ m : Message, deserializeMessage (serializeMessage m) = m := by
    intro m
    cases m
    simp [deserializeMessage, serializeMessage, decodeDate_encodeDate]
  have hround : deserializeSessions (serializeSessions sessions) = sessions := by
    unfold deserializeSessions serializeSessions
    rw [List.map_map]
    have : ∀ s ∈ sessions,
        (fun session =>
          ({ id := session.id
             title := session.title
             messages := session.messages.map deserializeMessage
             createdAt := decodeDate session.createdAt
             updatedAt := decodeDate session.updatedAt
             modelName := session.modelName
             provider := session.provider.getD ModelProvider.google
             systemPrompt := session.systemPrompt } : ChatSession)).comp
          serializeSession s = s := by
      intro s _
      cases s
      simp [Function.comp, serializeSession, decodeDate_encodeDate, List.map_map,
        Function.comp_def, hmsg]
    rw [List.map_congr_left this]
    simp
  have hany : sessions.any (fun session => session.id = activeId) = true := by
    obtain ⟨s, hs, hsid⟩ := List.mem_map.mp hmem
    exact List.any_eq_true.mpr ⟨s, hs, by simp [hsid]⟩
  refine ⟨hround, ?_, ?_, ?_⟩
  · rw [hround]
    simp [loadSavedActiveSessionId, hid, hany]
  · rw [hround]
    simp only [loadSavedActiveSessionId, hid, hany]
    simpa [hid, hany] using hmem
  · intro record hnone s hs
    simp only [deserializeSessions, List.map_cons, List.map_nil,
      List.mem_singleton] at hs
    subst hs
    simp [hnone]

/-- Witness for C8: the two-session example state round-trips, keeping its
active id valid. -/
theorem persistence_round_trip_witness :
    "s2" ∈ exampleState2.sessions.map ChatSession.id ∧
    (deserializeSessions (serializeSessions exampleState2.sessions) = exampleState2.sessions ∧
     loadSavedActiveSessionId (some "s2")
       (deserializeSessions (serializeSessions exampleState2.sessions)) = "s2" ∧
     loadSavedActiveSessionId (some "s2")
         (deserializeSessions (serializeSessions exampleState2.sessions)) ∈
       (deserializeSessions (serializeSessions exampleState2.sessions)).map ChatSession.id ∧
     (∀ record : SerializedSession, record.provider = none →
       ∀ s ∈ deserializeSessions [record], s.provider = ModelProvider.google)) :=
  ⟨by decide, persistence_round_trip exampleState2.sessions "s2" (by decide) (by decide)⟩

theorem updateMessage_activeId (st : ChatState) (messageId content : String)
    (now : Nat) : (updateMessage st messageId content now).activeId = st.activeId := by
  unfold updateMessage
  split <;> rfl

theorem mapActive_activeId (st : ChatState) (f : ChatSession → ChatSession) :
    (mapActive st f).activeId = st.activeId := rfl

theorem appendPlaceholder_activeId (st : ChatState) (aiId : String) (now : Nat) :
    (appendPlaceholder st aiId now).activeId = st.activeId := rfl

/-- `find?` by id commutes with mapping an id-preserving function. -/
theorem find?_map_of_id (l : List ChatSession) (aid : String)
    (g : ChatSession → ChatSession) (hg : ∀ s, (g s).id = s.id) :
    (l.map g).find? (fun s => s.id = aid) =
      (l.find? (fun s => s.id = aid)).map g := by
  induction l with
  | nil => rfl
  | cons x xs ih =>
      by_cases hx : x.id = aid
      · rw [List.map_cons, List.find?_cons_of_pos _ (by simp [hg, hx]),
          List.find?_cons_of_pos _ (by simp [hx])]
        rfl
      · rw [List.map_cons, List.find?_cons_of_neg _ (by simp [hg, hx]),
          List.find?_cons_of_neg _ (by simp [hx]), ih]

/-- `find?` of the active session after a `mapActive` update. -/
theorem find?_mapActive_some (st : ChatState) (f : ChatSession → ChatSession)
    (hf : ∀ s, s.id = st.activeId → (f s).id = s.id) (active : ChatSession)
    (hfind : st.sessions.find? (fun s => s.id = st.activeId) = some active) :
    (mapActive st f).sessions.find? (fun s => s.id = st.activeId) =
      some (f active) := by
  have hid : active.id = st.activeId := by
    simpa using List.find?_some hfind
  have hpres : ∀ s : ChatSession,
      ((if s.id = st.activeId then f s else s) : ChatSession).id = s.id := by
    intro s
    by_cases h : s.id = st.activeId <;> simp [h, hf]
  simp only [mapActive]
  rw [find?_map_of_id _ _ _ hpres, hfind]
  simp [hid]

/-- Patching by id over a list whose only match is the trailing element. -/
theorem map_patch_append (L : List Message) (m0 : Message) (aiId : String)
    (f : Message → Message) (hL : ∀ m ∈ L, m.id ≠ aiId) (hm0 : m0.id = aiId) :
    (L ++ [m0]).map (fun msg => if msg.id = aiId then f msg else msg) =
      L ++ [f m0] := by
  rw [List.map_append]
  have h1 : L.map (fun msg => if msg.id = aiId then f msg else msg) = L := by
    have hcongr : ∀ m ∈ L,
        (if m.id = aiId then f m else m) = m := fun m hm => if_neg (hL m hm)
    rw [List.map_congr_left hcongr]
    simp
  rw [h1]
  simp [hm0]

/-- Invariant of the streaming loop: starting from a state whose active
session ends in the placeholder (holding the accumulated text so far), after
folding the remaining deltas the active session ends in the placeholder
holding the full accumulated text, everything else untouched. -/
theorem streamFold_find? (aiId : String) (now : Nat) :
    ∀ (deltas : List String) (full : String) (st : ChatState)
      (A : ChatSession) (L : List Message) (m0 : Message),
    st.activeId ≠ "" →
    st.sessions.find? (fun s => s.id = st.activeId) = some A →
    A.messages = L ++ [m0] →
    A.updatedAt = now →
    m0.id = aiId →
    m0.content = full →
    (∀ m ∈ L, m.id ≠ aiId) →
    (deltas.foldl (streamStep aiId now) (full, st)).2.activeId = st.activeId ∧
    (deltas.foldl (streamStep aiId now) (full, st)).2.sessions.find?
        (fun s => s.id = st.activeId) =
      some { A with
        messages := L ++ [{ m0 with content := full ++ textConcat deltas }]
        updatedAt := now } := by
  intro deltas
  induction deltas with
  | nil =>
      intro full st A L m0 hact hfind hmsgs hupd hm0id hm0c hL
      refine ⟨rfl, ?_⟩
      simp only [List.foldl_nil]
      rw [hfind]
      congr 1
      cases A
      cases m0
      simp_all [textConcat]
  | cons d ds ih =>
      intro full st A L m0 hact hfind hmsgs hupd hm0id hm0c hL
      simp only [List.foldl_cons, streamStep]
      have hupdact : (updateMessage st aiId (full ++ d) now).activeId = st.activeId :=
        updateMessage_activeId st aiId (full ++ d) now
      have hfind2 : (updateMessage st aiId (full ++ d) now).sessions.find?
          (fun s => s.id = st.activeId) =
          some { A with
            messages := L ++ [{ m0 with content := full ++ d }]
            updatedAt := now } := by
        simp only [updateMessage, if_neg hact]
        rw [find?_mapActive_some st
          (fun session =>
            { session with
                messages := session.messages.map fun msg =>
                  if msg.id = aiId then { msg with content := full ++ d } else msg
                updatedAt := now })
          (fun s _ => rfl) A hfind]
        congr 2
        rw [hmsgs]
        exact map_patch_append L m0 aiId (fun msg => { msg with content := full ++ d }) hL hm0id
      have hres := ih (full ++ d) (updateMessage st aiId (full ++ d) now)
        { A with messages := L ++ [{ m0 with content := full ++ d }], updatedAt := now }
        L { m0 with content := full ++ d }
        (by rw [hupdact]; exact hact)
        (by rw [hupdact]; exact hfind2)
        rfl rfl hm0id rfl hL
      rw [hupdact] at hres
      refine ⟨hres.1, ?_⟩
      rw [hres.2]
      congr 2
      simp [textConcat, String.append_assoc]

/-- Effect of the normal-completion `setSessions` on the active session when
its only message with the placeholder id is the trailing one. -/
theorem finalize_find? (st : ChatState) (aiId : String) (now : Nat)
    (A : ChatSession) (L : List Message) (m0 : Message)
    (hfind : st.sessions.find? (fun s => s.id = st.activeId) = some A)
    (hA : A.messages = L ++ [m0]) (hm0 : m0.id = aiId)
    (hL : ∀ m ∈ L, m.id ≠ aiId) :
    (finalizeStreaming st aiId now).sessions.find? (fun s => s.id = st.activeId) =
      some { A with
        messages := L ++ [{ m0 with
          isLoading := some false
          provider := some A.provider
          modelName := some A.modelName }]
        updatedAt := now } := by
  simp only [finalizeStreaming]
  rw [find?_mapActive_some st
    (fun session =>
      { session with
          messages := session.messages.map fun msg =>
            if msg.id = aiId then
              { msg with
                  isLoading := some false
                  provider := some session.provider
                  modelName := some session.modelName }
            else msg
          updatedAt := now })
    (fun s _ => rfl) A hfind]
  congr 2
  rw [hA]
  exact map_patch_append L m0 aiId
    (fun msg =>
      { msg with
          isLoading := some false
          provider := some A.provider
          modelName := some A.modelName })
    hL hm0

/-- Effect of the error-handler `setSessions` on the active session when its
only message with the placeholder id is the trailing one. -/
theorem fail_find? (st : ChatState) (aiId : String) (now : Nat)
    (A : ChatSession) (L : List Message) (m0 : Message)
    (hfind : st.sessions.find? (fun s => s.id = st.activeId) = some A)
    (hA : A.messages = L ++ [m0]) (hm0 : m0.id = aiId)
    (hL : ∀ m ∈ L, m.id ≠ aiId) :
    (failStreaming st aiId now).sessions.find? (fun s => s.id = st.activeId) =
      some { A with
        messages := L ++ [{ m0 with
          content := errorFallbackText
          isLoading := some false }]
        updatedAt := now } := by
  simp only [failStreaming]
  rw [find?_mapActive_some st
    (fun session =>
      { session with
          messages := session.messages.map fun msg =>
            if msg.id = aiId then
              { msg with content := errorFallbackText, isLoading := some false }
            else msg
          updatedAt := now })
    (fun s _ => rfl) A hfind]
  congr 2
  rw [hA]
  exact map_patch_append L m0 aiId
    (fun msg => { msg with content := errorFallbackText, isLoading := some false })
    hL hm0

/-- Placeholder append, streaming, and completion, end to end: starting from
a state whose active session is `A1` (with no message colliding with the
fresh placeholder id), the active session ends with exactly one appended
assistant message — the completed placeholder on success, the fallback
message on error — and its other messages untouched. -/
theorem streamPipeline_find? (st1 : ChatState) (A1 : ChatSession)
    (aiId : String) (now : Nat) (deltas : List String) (errored : Bool)
    (hact : st1.activeId ≠ "")
    (hfind : st1.sessions.find? (fun s => s.id = st1.activeId) = some A1)
    (hfresh : ∀ m ∈ A1.messages, m.id ≠ aiId) :
    ((if errored then
        failStreaming (streamDeltas (appendPlaceholder st1 aiId now) aiId now deltas).2 aiId now
      else
        finalizeStreaming (streamDeltas (appendPlaceholder st1 aiId now) aiId now deltas).2 aiId now).activeId
      = st1.activeId) ∧
    (if errored then
        failStreaming (streamDeltas (appendPlaceholder st1 aiId now) aiId now deltas).2 aiId now
      else
        finalizeStreaming (streamDeltas (appendPlaceholder st1 aiId now) aiId now deltas).2 aiId now).sessions.find?
        (fun s => s.id = st1.activeId) =
      some { A1 with
        messages := A1.messages ++
          [if errored then failedPlaceholder A1 aiId now
           else completedPlaceholder A1 aiId now deltas]
        updatedAt := now } := by
  have hfind2 : (appendPlaceholder st1 aiId now).sessions.find?
      (fun s => s.id = st1.activeId) =
      some { A1 with
        messages := A1.messages ++ [placeholderFor A1 aiId now]
        updatedAt := now } := by
    simp only [appendPlaceholder]
    exact find?_mapActive_some st1
      (fun session =>
        { session with
            messages := session.messages ++ [placeholderFor session aiId now]
            updatedAt := now })
      (fun s _ => rfl) A1 hfind
  have hstream := streamFold_find? aiId now deltas "" (appendPlaceholder st1 aiId now)
    { A1 with messages := A1.messages ++ [placeholderFor A1 aiId now], updatedAt := now }
    A1.messages (placeholderFor A1 aiId now)
    hact hfind2 rfl rfl rfl rfl hfresh
  simp only [appendPlaceholder_activeId] at hstream
  have hstreamMsg : (streamDeltas (appendPlaceholder st1 aiId now) aiId now deltas).2.sessions.find?
      (fun s => s.id = st1.activeId) =
      some { A1 with
        messages := A1.messages ++
          [{ placeholderFor A1 aiId now with content := textConcat deltas }]
        updatedAt := now } := by
    simp only [streamDeltas]
    rw [hstream.2]
    rfl
  have hstreamAct : (streamDeltas (appendPlaceholder st1 aiId now) aiId now deltas).2.activeId
      = st1.activeId := hstream.1
  have hstreamMsg2 : (streamDeltas (appendPlaceholder st1 aiId now) aiId now deltas).2.sessions.find?
      (fun s => s.id = (streamDeltas (appendPlaceholder st1 aiId now) aiId now deltas).2.activeId) =
      some { A1 with
        messages := A1.messages ++
          [{ placeholderFor A1 aiId now with content := textConcat deltas }]
        updatedAt := now } := by
    rw [hstreamAct]
    exact hstreamMsg
  cases errored with
  | false =>
      simp only [Bool.false_eq_true, if_false]
      constructor
      · exact hstreamAct
      · have hmain := finalize_find?
          (streamDeltas (appendPlaceholder st1 aiId now) aiId now deltas).2
          aiId now
          { A1 with
            messages := A1.messages ++
              [{ placeholderFor A1 aiId now with content := textConcat deltas }]
            updatedAt := now }
          A1.messages
          { placeholderFor A1 aiId now with content := textConcat deltas }
          hstreamMsg2 rfl rfl hfresh
        rw [hstreamAct] at hmain
        refine hmain.trans ?_
        simp [placeholderFor, completedPlaceholder]
  | true =>
      simp only [if_pos rfl]
      constructor
      · exact hstreamAct
      · have hmain := fail_find?
          (streamDeltas (appendPlaceholder st1 aiId now) aiId now deltas).2
          aiId now
          { A1 with
            messages := A1.messages ++
              [{ placeholderFor A1 aiId now with content := textConcat deltas }]
            updatedAt := now }
          A1.messages
          { placeholderFor A1 aiId now with content := textConcat deltas }
          hstreamMsg2 rfl rfl hfresh
        rw [hstreamAct] at hmain
        refine hmain.trans ?_
        simp [placeholderFor, failedPlaceholder]

/-- Unfolding of `sendMessage` on non-blank input with an active session:
one user append, one placeholder, one provider request, the streaming loop,
then the completion (or error) update. -/
theorem sendMessage_eq_of_active (st : ChatState) (content : String)
    (fresh : Nat → String) (now : Nat) (deltas : List String) (errored : Bool)
    (active : ChatSession) (hact : st.activeId ≠ "")
    (htrim : jsTrim content ≠ "")
    (hfind : st.sessions.find? (fun s => s.id = st.activeId) = some active) :
    sendMessage st content fresh now deltas errored =
      ((if errored then
          failStreaming
            (streamDeltas
              (appendPlaceholder
                (mapActive st (addMessageSessionUpdate content MessageRole.user
                  (newMessageOf content MessageRole.user (fresh 0) now) now))
                (fresh 1) now)
              (fresh 1) now deltas).2
            (fresh 1) now
        else
          finalizeStreaming
            (streamDeltas
              (appendPlaceholder
                (mapActive st (addMessageSessionUpdate content MessageRole.user
                  (newMessageOf content MessageRole.user (fresh 0) now) now))
                (fresh 1) now)
              (fresh 1) now deltas).2
            (fresh 1) now),
       [generateResponseCall
          (active.messages ++ [newMessageOf content MessageRole.user (fresh 0) now])
          active.modelName active.provider active.systemPrompt]) := by
  simp only [sendMessage, if_neg htrim, hfind, addMessage, if_neg hact]

/-- C2 (amended): when the adapter emits deltas and then errors, the
placeholder ends with content exactly the error-fallback text — the
accumulated partial text is replaced, not preserved — with the streaming
flag cleared. -/
theorem sendMessage_error_replaces_partial (st : ChatState) (content : String)
    (fresh : Nat → String) (now : Nat) (deltas : List String)
    (active : ChatSession) (hact : st.activeId ≠ "")
    (htrim : jsTrim content ≠ "")
    (hfind : st.sessions.find? (fun s => s.id = st.activeId) = some active)
    (hfreshMsgs : ∀ m ∈ active.messages, m.id ≠ fresh 1)
    (hfresh01 : fresh 0 ≠ fresh 1) :
    (sendMessage st content fresh now deltas true).1.sessions.find?
        (fun s => s.id = st.activeId) =
      some { sessionAfterUserAppend active content (fresh 0) now with
        messages := (sessionAfterUserAppend active content (fresh 0) now).messages ++
          [failedPlaceholder (sessionAfterUserAppend active content (fresh 0) now)
            (fresh 1) now]
        updatedAt := now } ∧
    (failedPlaceholder (sessionAfterUserAppend active content (fresh 0) now)
        (fresh 1) now).content = errorFallbackText ∧
    (failedPlaceholder (sessionAfterUserAppend active content (fresh 0) now)
        (fresh 1) now).isLoading = some false := by
  have hunfold := sendMessage_eq_of_active st content fresh now deltas true active
    hact htrim hfind
  have hfind1 : (mapActive st (addMessageSessionUpdate content MessageRole.user
      (newMessageOf content MessageRole.user (fresh 0) now) now)).sessions.find?
      (fun s => s.id = st.activeId) =
      some (addMessageSessionUpdate content MessageRole.user
        (newMessageOf content MessageRole.user (fresh 0) now) now active) :=
    find?_mapActive_some st
      (addMessageSessionUpdate content MessageRole.user
        (newMessageOf content MessageRole.user (fresh 0) now) now)
      (fun s _ => rfl) active hfind
  have hfresh1 : ∀ m ∈ (addMessageSessionUpdate content MessageRole.user
      (newMessageOf content MessageRole.user (fresh 0) now) now active).messages,
      m.id ≠ fresh 1 := by
    intro m hm
    simp only [addMessageSessionUpdate, List.mem_append, List.mem_singleton] at hm
    rcases hm with hm | hm
    · exact hfreshMsgs m hm
    · subst hm
      simpa [newMessageOf] using hfresh01
  have hpipe := streamPipeline_find?
    (mapActive st (addMessageSessionUpdate content MessageRole.user
      (newMessageOf content MessageRole.user (fresh 0) now) now))
    (addMessageSessionUpdate content MessageRole.user
      (newMessageOf content MessageRole.user (fresh 0) now) now active)
    (fresh 1) now deltas true hact hfind1 hfresh1
  simp only [if_pos rfl, mapActive_activeId] at hpipe
  refine ⟨?_, rfl, rfl⟩
  rw [hunfold]
  simp only [if_pos rfl]
  exact hpipe.2

/-- Counterexample to C2 as stated: the adapter emits deltas
`["He", "llo"]` and then errors, and the resulting assistant message content
is exactly the fallback text — not the accumulated partial text "Hello"
followed by the fallback text. -/
theorem sendMessage_error_partial_not_preserved :
    ((sendMessage exampleState3 "Query" exampleFresh 5 ["He", "llo"] true).1.sessions.map
        fun s => s.messages.map fun m => (m.content, m.isLoading)) =
      [[("Query", none), (errorFallbackText, some false)]] ∧
    errorFallbackText ≠ "Hello" ++ errorFallbackText := by
  constructor
  · decide
  · decide

/-- Witness for the amended C2: running the concrete error scenario. -/
theorem sendMessage_error_replaces_partial_witness :
    exampleState3.activeId ≠ "" ∧
    jsTrim "Query" ≠ "" ∧
    exampleState3.sessions.find? (fun s => s.id = exampleState3.activeId) =
      some exampleEmptySession ∧
    ((sendMessage exampleState3 "Query" exampleFresh 5 ["He", "llo"] true).1.sessions.find?
        (fun s => s.id = exampleState3.activeId) =
      some { sessionAfterUserAppend exampleEmptySession "Query" (exampleFresh 0) 5 with
        messages := (sessionAfterUserAppend exampleEmptySession "Query" (exampleFresh 0) 5).messages ++
          [failedPlaceholder (sessionAfterUserAppend exampleEmptySession "Query" (exampleFresh 0) 5)
            (exampleFresh 1) 5]
        updatedAt := 5 } ∧
     (failedPlaceholder (sessionAfterUserAppend exampleEmptySession "Query" (exampleFresh 0) 5)
        (exampleFresh 1) 5).content = errorFallbackText ∧
     (failedPlaceholder (sessionAfterUserAppend exampleEmptySession "Query" (exampleFresh 0) 5)
        (exampleFresh 1) 5).isLoading = some false) :=
  ⟨by decide, by decide, by decide,
   sendMessage_error_replaces_partial exampleState3 "Query" exampleFresh 5
     ["He", "llo"] exampleEmptySession (by decide) (by decide) (by decide)
     (by decide) (by decide)⟩

/-- Counterexample to C6 as stated: on the model without system-prompt
support and the prompt "Be terse", the message list sent to the provider is
the plain user turn only — the prompt is suppressed entirely, not folded
into the user turn. -/
theorem systemPrompt_not_folded_counterexample :
    ((sendMessage exampleState8b "hi" exampleFresh 5 ["ok"] false).2.map
        fun call => (geminiFormatMessages call.history call.effectiveSystemPrompt).map
          GeminiMessage.text) = [["hi"]] ∧
    (∀ texts ∈ (sendMessage exampleState8b "hi" exampleFresh 5 ["ok"] false).2.map
        fun call => (geminiFormatMessages call.history call.effectiveSystemPrompt).map
          GeminiMessage.text,
      "System: Be terse" ∉ texts) := by
  constructor
  · decide
  · decide

/-- C6 (amended): for a session whose model lacks system-prompt support and
whose prompt is non-empty, sendMessage resolves the effective system prompt
once per request to none — the provider receives the plain history with no
separate system-role turn and no folded prompt — and the placeholder
assistant message ends non-streaming and fully populated when the delta
sequence is exhausted. -/
theorem sendMessage_nonsupported_model_suppresses_prompt (st : ChatState)
    (content : String) (fresh : Nat → String) (now : Nat) (deltas : List String)
    (active : ChatSession) (hact : st.activeId ≠ "")
    (htrim : jsTrim content ≠ "")
    (hfind : st.sessions.find? (fun s => s.id = st.activeId) = some active)
    (hfreshMsgs : ∀ m ∈ active.messages, m.id ≠ fresh 1)
    (hfresh01 : fresh 0 ≠ fresh 1)
    (hmodel : active.modelName = "gemini-1.5-flash-8b")
    (hsp : active.systemPrompt ≠ "") :
    (sendMessage st content fresh now deltas false).2 =
      [generateResponseCall
        (active.messages ++ [newMessageOf content MessageRole.user (fresh 0) now])
        active.modelName active.provider active.systemPrompt] ∧
    (generateResponseCall
        (active.messages ++ [newMessageOf content MessageRole.user (fresh 0) now])
        active.modelName active.provider active.systemPrompt).effectiveSystemPrompt = none ∧
    geminiFormatMessages
        (active.messages ++ [newMessageOf content MessageRole.user (fresh 0) now])
        (generateResponseCall
          (active.messages ++ [newMessageOf content MessageRole.user (fresh 0) now])
          active.modelName active.provider active.systemPrompt).effectiveSystemPrompt =
      (active.messages ++ [newMessageOf content MessageRole.user (fresh 0) now]).map
        (fun msg =>
          { role := if msg.role = MessageRole.user then "user" else "model"
            text := msg.content }) ∧
    (sendMessage st content fresh now deltas false).1.sessions.find?
        (fun s => s.id = st.activeId) =
      some { sessionAfterUserAppend active content (fresh 0) now with
        messages := (sessionAfterUserAppend active content (fresh 0) now).messages ++
          [completedPlaceholder (sessionAfterUserAppend active content (fresh 0) now)
            (fresh 1) now deltas]
        updatedAt := now } ∧
    (completedPlaceholder (sessionAfterUserAppend active content (fresh 0) now)
        (fresh 1) now deltas).isLoading = some false ∧
    (completedPlaceholder (sessionAfterUserAppend active content (fresh 0) now)
        (fresh 1) now deltas).content = textConcat deltas := by
  have hunfold := sendMessage_eq_of_active st content fresh now deltas false active
    hact htrim hfind
  have heff : (generateResponseCall
      (active.messages ++ [newMessageOf content MessageRole.user (fresh 0) now])
      active.modelName active.provider active.systemPrompt).effectiveSystemPrompt = none := by
    simp [generateResponseCall, getEffectiveSystemPrompt, supportsSystemPrompt, hmodel]
  have hfind1 : (mapActive st (addMessageSessionUpdate content MessageRole.user
      (newMessageOf content MessageRole.user (fresh 0) now) now)).sessions.find?
      (fun s => s.id = st.activeId) =
      some (addMessageSessionUpdate content MessageRole.user
        (newMessageOf content MessageRole.user (fresh 0) now) now active) :=
    find?_mapActive_some st
      (addMessageSessionUpdate content MessageRole.user
        (newMessageOf content MessageRole.user (fresh 0) now) now)
      (fun s _ => rfl) active hfind
  have hfresh1 : ∀ m ∈ (addMessageSessionUpdate content MessageRole.user
      (newMessageOf content MessageRole.user (fresh 0) now) now active).messages,
      m.id ≠ fresh 1 := by
    intro m hm
    simp only [addMessageSessionUpdate, List.mem_append, List.mem_singleton] at hm
    rcases hm with hm | hm
    · exact hfreshMsgs m hm
    · subst hm
      simpa [newMessageOf] using hfresh01
  have hpipe := streamPipeline_find?
    (mapActive st (addMessageSessionUpdate content MessageRole.user
      (newMessageOf content MessageRole.user (fresh 0) now) now))
    (addMessageSessionUpdate content MessageRole.user
      (newMessageOf content MessageRole.user (fresh 0) now) now active)
    (fresh 1) now deltas false hact hfind1 hfresh1
  simp only [Bool.false_eq_true, if_false, mapActive_activeId] at hpipe
  refine ⟨?_, heff, ?_, ?_, rfl, rfl⟩
  · rw [hunfold]
  · rw [heff]
    rfl
  · rw [hunfold]
    simp only [Bool.false_eq_true, if_false]
    exact hpipe.2

/-- Witness for the amended C6: the concrete non-supporting scenario. -/
theorem sendMessage_nonsupported_model_suppresses_prompt_witness :
    exampleState8b.activeId ≠ "" ∧
    jsTrim "hi" ≠ "" ∧
    exampleState8b.sessions.find? (fun s => s.id = exampleState8b.activeId) =
      some exampleSession8b ∧
    exampleSession8b.modelName = "gemini-1.5-flash-8b" ∧
    exampleSession8b.systemPrompt ≠ "" ∧
    ((sendMessage exampleState8b "hi" exampleFresh 5 ["He", "llo!"] false).2 =
      [generateResponseCall
        (exampleSession8b.messages ++ [newMessageOf "hi" MessageRole.user (exampleFresh 0) 5])
        exampleSession8b.modelName exampleSession8b.provider exampleSession8b.systemPrompt] ∧
     (generateResponseCall
        (exampleSession8b.messages ++ [newMessageOf "hi" MessageRole.user (exampleFresh 0) 5])
        exampleSession8b.modelName exampleSession8b.provider exampleSession8b.systemPrompt).effectiveSystemPrompt = none ∧
     geminiFormatMessages
        (exampleSession8b.messages ++ [newMessageOf "hi" MessageRole.user (exampleFresh 0) 5])
        (generateResponseCall
          (exampleSession8b.messages ++ [newMessageOf "hi" MessageRole.user (exampleFresh 0) 5])
          exampleSession8b.modelName exampleSession8b.provider exampleSession8b.systemPrompt).effectiveSystemPrompt =
      (exampleSession8b.messages ++ [newMessageOf "hi" MessageRole.user (exampleFresh 0) 5]).map
        (fun msg =>
          { role := if msg.role = MessageRole.user then "user" else "model"
            text := msg.content }) ∧
     (sendMessage exampleState8b "hi" exampleFresh 5 ["He", "llo!"] false).1.sessions.find?
        (fun s => s.id = exampleState8b.activeId) =
      some { sessionAfterUserAppend exampleSession8b "hi" (exampleFresh 0) 5 with
        messages := (sessionAfterUserAppend exampleSession8b "hi" (exampleFresh 0) 5).messages ++
          [completedPlaceholder (sessionAfterUserAppend exampleSession8b "hi" (exampleFresh 0) 5)
            (exampleFresh 1) 5 ["He", "llo!"]]
        updatedAt := 5 } ∧
     (completedPlaceholder (sessionAfterUserAppend exampleSession8b "hi" (exampleFresh 0) 5)
        (exampleFresh 1) 5 ["He", "llo!"]).isLoading = some false ∧
     (completedPlaceholder (sessionAfterUserAppend exampleSession8b "hi" (exampleFresh 0) 5)
        (exampleFresh 1) 5 ["He", "llo!"]).content = textConcat ["He", "llo!"]) :=
  ⟨by decide, by decide, by decide, by decide, by decide,
   sendMessage_nonsupported_model_suppresses_prompt exampleState8b "hi" exampleFresh 5
     ["He", "llo!"] exampleSession8b (by decide) (by decide) (by decide)
     (by decide) (by decide) (by decide) (by decide)⟩

/-- The index-based filter of `regenerateFromMessage`, rephrased: everything
at or before the cutoff index is kept, and past it only user messages
survive. -/
theorem enumFrom_truncation (i : Nat) :
    ∀ (l : List Message) (n : Nat),
      ((List.enumFrom n l).filter (fun p =>
          p.1 ≤ i ∨ (i < p.1 ∧ p.2.role = MessageRole.user))).map Prod.snd =
        if i < n then l.filter (fun msg => msg.role = MessageRole.user)
        else l.take (i + 1 - n) ++
          (l.drop (i + 1 - n)).filter (fun msg => msg.role = MessageRole.user) := by
  intro l
  induction l with
  | nil =>
      intro n
      by_cases h : i < n <;> simp [h]
  | cons x xs ih =>
      intro n
      have henum : List.enumFrom n (x :: xs) = (n, x) :: List.enumFrom (n + 1) xs := rfl
      rw [henum, List.filter_cons]
      by_cases hni : n ≤ i
      · have hc : (decide ((n, x).1 ≤ i ∨ (i < (n, x).1 ∧ (n, x).2.role = MessageRole.user))) = true := by
          simp [hni]
        rw [if_pos hc, List.map_cons, ih (n + 1)]
        have hnlt : ¬ i < n := by omega
        rw [if_neg hnlt]
        by_cases heq : i < n + 1
        · rw [if_pos heq]
          have h1 : i + 1 - n = 1 := by omega
          rw [h1]
          simp
        · rw [if_neg heq]
          have h1 : i + 1 - n = (i + 1 - (n + 1)) + 1 := by omega
          rw [h1]
          simp
      · have hin : i < n := by omega
        by_cases hPx : x.role = MessageRole.user
        · have hc : (decide ((n, x).1 ≤ i ∨ (i < (n, x).1 ∧ (n, x).2.role = MessageRole.user))) = true := by
            simp [hin, hPx, hni]
          rw [if_pos hc, List.map_cons, ih (n + 1)]
          rw [if_pos (by omega : i < n + 1), if_pos hin, List.filter_cons, if_pos (by simp [hPx])]
        · have hc : ¬ (decide ((n, x).1 ≤ i ∨ (i < (n, x).1 ∧ (n, x).2.role = MessageRole.user))) = true := by
            simp [hPx, hni]
          rw [if_neg hc, ih (n + 1)]
          rw [if_pos (by omega : i < n + 1), if_pos hin, List.filter_cons, if_neg (by simp [hPx])]

/-- Elements produced by an id-preserving `mapIdx` keep an id from the
original list. -/
theorem mapIdx_mem_id :
    ∀ (l : List Message) (f : Nat → Message → Message),
      (∀ j m, (f j m).id = m.id) → ∀ x ∈ l.mapIdx f, ∃ y ∈ l, x.id = y.id := by
  intro l
  induction l with
  | nil =>
      intro f hf x hx
      simp at hx
  | cons a l ih =>
      intro f hf x hx
      rw [List.mapIdx_cons] at hx
      rcases List.mem_cons.mp hx with hx | hx
      · exact ⟨a, List.mem_cons_self a l, by rw [hx, hf]⟩
      · obtain ⟨y, hy, hxy⟩ := ih (fun j m => f (j + 1) m) (fun j m => hf (j + 1) m) x hx
        exact ⟨y, List.mem_cons_of_mem a hy, hxy⟩

/-- Lookup inside a `mapIdx`. -/
theorem getElem?_mapIdx_eq :
    ∀ (l : List Message) (f : Nat → Message → Message) (j : Nat),
      (l.mapIdx f)[j]? = (l[j]?).map (f j) := by
  intro l
  induction l with
  | nil => intro f j; simp
  | cons a l ih =>
      intro f j
      rw [List.mapIdx_cons]
      cases j with
      | zero => simp
      | succ j =>
          simp only [List.getElem?_cons_succ]
          exact ih (fun i m => f (i + 1) m) j

/-- Unfolding of `regenerateFromMessage` when the edited message exists and
is a user turn. -/
theorem regenerateFromMessage_eq_of_found (st : ChatState)
    (messageId newContent : String) (fresh : Nat → String) (now : Nat)
    (deltas : List String) (errored : Bool) (active : ChatSession) (i : Nat)
    (em : Message) (hact : st.activeId ≠ "")
    (hfind : st.sessions.find? (fun s => s.id = st.activeId) = some active)
    (hidx : active.messages.findIdx? (fun msg => msg.id = messageId) = some i)
    (hedit : (editedMessages active.messages i newContent)[i]? = some em)
    (hrole : em.role = MessageRole.user) :
    regenerateFromMessage st messageId newContent fresh now deltas errored =
      ((if errored then
          failStreaming
            (streamDeltas
              (appendPlaceholder
                { st with sessions := st.sessions.map fun session =>
                    if session.id = st.activeId then
                      { active with
                        messages := ((editedMessages active.messages i newContent).enum.filter
                          fun p => p.1 ≤ i ∨ (i < p.1 ∧ p.2.role = MessageRole.user)).map Prod.snd }
                    else session }
                (fresh 0) now)
              (fresh 0) now deltas).2
            (fresh 0) now
        else
          finalizeStreaming
            (streamDeltas
              (appendPlaceholder
                { st with sessions := st.sessions.map fun session =>
                    if session.id = st.activeId then
                      { active with
                        messages := ((editedMessages active.messages i newContent).enum.filter
                          fun p => p.1 ≤ i ∨ (i < p.1 ∧ p.2.role = MessageRole.user)).map Prod.snd }
                    else session }
                (fresh 0) now)
              (fresh 0) now deltas).2
            (fresh 0) now),
       [generateResponseCall
          (((editedMessages active.messages i newContent).enum.filter
            fun p => p.1 ≤ i ∨ (i < p.1 ∧ p.2.role = MessageRole.user)).map Prod.snd)
          active.modelName active.provider active.systemPrompt]) := by
  simp only [regenerateFromMessage, if_neg hact, hfind, hidx, hedit, if_pos hrole]

/-- C3: regenerateFromMessage on a user message replaces its content,
truncates the list so that later non-user messages are dropped while later
user messages (and everything at or before the edited message) are kept,
and issues exactly one generation call appending exactly one fresh
placeholder assistant message. -/
theorem regenerateFromMessage_spec (st : ChatState) (messageId newContent : String)
    (fresh : Nat → String) (now : Nat) (deltas : List String) (errored : Bool)
    (active : ChatSession) (i : Nat) (m : Message) (hact : st.activeId ≠ "")
    (hfind : st.sessions.find? (fun s => s.id = st.activeId) = some active)
    (hidx : active.messages.findIdx? (fun msg => msg.id = messageId) = some i)
    (hget : active.messages[i]? = some m)
    (hrole : m.role = MessageRole.user)
    (hfreshAll : ∀ x ∈ active.messages, x.id ≠ fresh 0) :
    (regenerateFromMessage st messageId newContent fresh now deltas errored).2 =
      [generateResponseCall (truncatedMessages active.messages i newContent)
        active.modelName active.provider active.systemPrompt] ∧
    (regenerateFromMessage st messageId newContent fresh now deltas errored).1.sessions.find?
        (fun s => s.id = st.activeId) =
      some { active with
        messages := truncatedMessages active.messages i newContent ++
          [if errored then failedPlaceholder active (fresh 0) now
           else completedPlaceholder active (fresh 0) now deltas]
        updatedAt := now } ∧
    (if errored then failedPlaceholder active (fresh 0) now
     else completedPlaceholder active (fresh 0) now deltas).role = MessageRole.model := by
  have hedit : (editedMessages active.messages i newContent)[i]? =
      some { m with content := newContent } := by
    show (active.messages.mapIdx fun idx msg =>
      if idx = i then { msg with content := newContent } else msg)[i]? = _
    rw [getElem?_mapIdx_eq active.messages _ i, hget]
    simp
  have hrole2 : ({ m with content := newContent } : Message).role = MessageRole.user := by
    simpa using hrole
  have hunfold := regenerateFromMessage_eq_of_found st messageId newContent fresh now
    deltas errored active i { m with content := newContent } hact hfind hidx hedit hrole2
  have htrunc : ((editedMessages active.messages i newContent).enum.filter
      fun p => p.1 ≤ i ∨ (i < p.1 ∧ p.2.role = MessageRole.user)).map Prod.snd =
      truncatedMessages active.messages i newContent := by
    have h := enumFrom_truncation i (editedMessages active.messages i newContent) 0
    rw [show List.enum (editedMessages active.messages i newContent) =
      List.enumFrom 0 (editedMessages active.messages i newContent) from rfl]
    rw [h, if_neg (by omega : ¬ i < 0)]
    rfl
  have hfreshTrunc : ∀ x ∈ truncatedMessages active.messages i newContent,
      x.id ≠ fresh 0 := by
    intro x hx
    have hmem : x ∈ editedMessages active.messages i newContent := by
      rcases List.mem_append.mp hx with hx | hx
      · exact List.mem_of_mem_take hx
      · exact List.mem_of_mem_drop (List.mem_filter.mp hx).1
    obtain ⟨y, hy, hxy⟩ := mapIdx_mem_id active.messages _
      (by
        intro j msg
        by_cases hj : j = i <;> simp [hj])
      x hmem
    rw [hxy]
    exact hfreshAll y hy
  have hfind1 : ({ st with sessions := st.sessions.map fun session =>
      if session.id = st.activeId then
        { active with
          messages := ((editedMessages active.messages i newContent).enum.filter
            fun p => p.1 ≤ i ∨ (i < p.1 ∧ p.2.role = MessageRole.user)).map Prod.snd }
      else session } : ChatState).sessions.find? (fun s => s.id = st.activeId) =
      some { active with
        messages := ((editedMessages active.messages i newContent).enum.filter
          fun p => p.1 ≤ i ∨ (i < p.1 ∧ p.2.role = MessageRole.user)).map Prod.snd } := by
    have hid : active.id = st.activeId := by
      simpa using List.find?_some hfind
    exact find?_mapActive_some st
      (fun _ => { active with
        messages := ((editedMessages active.messages i newContent).enum.filter
          fun p => p.1 ≤ i ∨ (i < p.1 ∧ p.2.role = MessageRole.user)).map Prod.snd })
      (fun s hs => by rw [hid, hs]) active hfind
  have hfreshCur : ∀ x ∈ ({ active with
      messages := ((editedMessages active.messages i newContent).enum.filter
        fun p => p.1 ≤ i ∨ (i < p.1 ∧ p.2.role = MessageRole.user)).map Prod.snd } : ChatSession).messages,
      x.id ≠ fresh 0 := by
    intro x hx
    rw [show ({ active with
      messages := ((editedMessages active.messages i newContent).enum.filter
        fun p => p.1 ≤ i ∨ (i < p.1 ∧ p.2.role = MessageRole.user)).map Prod.snd } : ChatSession).messages =
      ((editedMessages active.messages i newContent).enum.filter
        fun p => p.1 ≤ i ∨ (i < p.1 ∧ p.2.role = MessageRole.user)).map Prod.snd from rfl,
      htrunc] at hx
    exact hfreshTrunc x hx
  have hpipe := streamPipeline_find?
    ({ st with sessions := st.sessions.map fun session =>
        if session.id = st.activeId then
          { active with
            messages := ((editedMessages active.messages i newContent).enum.filter
              fun p => p.1 ≤ i ∨ (i < p.1 ∧ p.2.role = MessageRole.user)).map Prod.snd }
        else session })
    ({ active with
      messages := ((editedMessages active.messages i newContent).enum.filter
        fun p => p.1 ≤ i ∨ (i < p.1 ∧ p.2.role = MessageRole.user)).map Prod.snd })
    (fresh 0) now deltas errored hact hfind1 hfreshCur
  refine ⟨?_, ?_, ?_⟩
  · rw [hunfold]
    simp only [htrunc]
  · rw [hunfold]
    cases errored with
    | false =>
        simp only [Bool.false_eq_true, if_false]
        simp only [Bool.false_eq_true, if_false] at hpipe
        refine hpipe.2.trans ?_
        rw [htrunc]
        rfl
    | true =>
        simp only [if_pos rfl]
        simp only [if_pos rfl] at hpipe
        refine hpipe.2.trans ?_
        rw [htrunc]
        rfl
  · cases errored <;> rfl

/-- Witness for C3: editing the first user message of the four-message
session keeps the edited user turn and the later user turn, drops both
assistant turns, and issues exactly one generation call with one appended
placeholder. -/
theorem regenerateFromMessage_spec_witness :
    exampleState4.activeId ≠ "" ∧
    exampleState4.sessions.find? (fun s => s.id = exampleState4.activeId) =
      some exampleFourSession ∧
    exampleFourSession.messages.findIdx? (fun msg => msg.id = "u1") = some 0 ∧
    exampleFourSession.messages[0]? =
      some { id := "u1", content := "first question", role := MessageRole.user, timestamp := 1 } ∧
    truncatedMessages exampleFourSession.messages 0 "edited question" =
      [{ id := "u1", content := "edited question", role := MessageRole.user, timestamp := 1 },
       { id := "u2", content := "second question", role := MessageRole.user, timestamp := 3 }] ∧
    ((regenerateFromMessage exampleState4 "u1" "edited question" exampleFresh 9 ["Answer"] false).2 =
      [generateResponseCall (truncatedMessages exampleFourSession.messages 0 "edited question")
        exampleFourSession.modelName exampleFourSession.provider exampleFourSession.systemPrompt] ∧
     (regenerateFromMessage exampleState4 "u1" "edited question" exampleFresh 9 ["Answer"] false).1.sessions.find?
        (fun s => s.id = exampleState4.activeId) =
      some { exampleFourSession with
        messages := truncatedMessages exampleFourSession.messages 0 "edited question" ++
          [if false then failedPlaceholder exampleFourSession (exampleFresh 0) 9
           else completedPlaceholder exampleFourSession (exampleFresh 0) 9 ["Answer"]]
        updatedAt := 9 } ∧
     (if false then failedPlaceholder exampleFourSession (exampleFresh 0) 9
      else completedPlaceholder exampleFourSession (exampleFresh 0) 9 ["Answer"]).role =
        MessageRole.model) :=
  ⟨by decide, by decide, by decide, by decide, by decide,
   regenerateFromMessage_spec exampleState4 "u1" "edited question" exampleFresh 9
     ["Answer"] false exampleFourSession 0
     { id := "u1", content := "first question", role := MessageRole.user, timestamp := 1 }
     (by decide) (by decide) (by decide) (by decide) (by decide) (by decide)⟩

/-- Counterexample to C9 as stated: the session title is assigned
synchronously from the first user message (a 30-character slice), already
before any assistant reply exists; the completed first exchange issues
exactly one provider request — the generation itself — and none carrying the
title-generator system prompt. -/
theorem title_not_llm_generated_counterexample :
    ((addMessage exampleState3 "Hello there" MessageRole.user "u9" 5).1.sessions.map
        ChatSession.title) = ["Hello there"] ∧
    ((sendMessage exampleState3 "Hello there" exampleFresh 5 ["Hi!"] false).1.sessions.map
        ChatSession.title) = ["Hello there"] ∧
    ("Hello there" : String) ≠ "New Chat" ∧
    (sendMessage exampleState3 "Hello there" exampleFresh 5 ["Hi!"] false).2.length = 1 ∧
    (∀ call ∈ (sendMessage exampleState3 "Hello there" exampleFresh 5 ["Hi!"] false).2,
      call.effectiveSystemPrompt ≠ some TITLE_GENERATOR_SYSTEM_PROMPT) := by
  refine ⟨?_, ?_, ?_, ?_, ?_⟩ <;> decide

/-- C9 (amended): a session bearing the placeholder title has its title set
synchronously when the first user message is appended, to the first 30
characters of that message (plus an ellipsis when longer); the
generateChatTitle helper is the only LLM title path and, when invoked, falls
back to "New Chat" on failure (or on empty output) instead of throwing. -/
theorem title_assignment_spec (st : ChatState) (content : String) (msgId : String)
    (now : Nat) (active : ChatSession) (hact : st.activeId ≠ "")
    (hfind : st.sessions.find? (fun s => s.id = st.activeId) = some active)
    (htitle : active.title = "New Chat") (hempty : active.messages = []) :
    (addMessage st content MessageRole.user msgId now).1.sessions.find?
        (fun s => s.id = st.activeId) =
      some (addMessageSessionUpdate content MessageRole.user
        (newMessageOf content MessageRole.user msgId now) now active) ∧
    (addMessageSessionUpdate content MessageRole.user
        (newMessageOf content MessageRole.user msgId now) now active).title =
      firstMessageTitle content ∧
    generateChatTitle (Except.error ()) = "New Chat" ∧
    generateChatTitle (Except.ok none) = "New Chat" ∧
    (∀ text, jsTrim text ≠ "" →
      generateChatTitle (Except.ok (some text)) = jsTrim text) := by
  refine ⟨?_, ?_, rfl, rfl, ?_⟩
  · simp only [addMessage, if_neg hact]
    exact find?_mapActive_some st
      (addMessageSessionUpdate content MessageRole.user
        (newMessageOf content MessageRole.user msgId now) now)
      (fun s _ => rfl) active hfind
  · simp [addMessageSessionUpdate, htitle, hempty]
  · intro text htext
    simp [generateChatTitle, htext]

/-- Witness for the amended C9: appending "Hello" to a fresh "New Chat"
session sets the slice title synchronously; the helper falls back on error. -/
theorem title_assignment_spec_witness :
    exampleState3.activeId ≠ "" ∧
    exampleState3.sessions.find? (fun s => s.id = exampleState3.activeId) =
      some exampleEmptySession ∧
    exampleEmptySession.title = "New Chat" ∧
    exampleEmptySession.messages = [] ∧
    ((addMessage exampleState3 "Hello" MessageRole.user "u9" 5).1.sessions.find?
        (fun s => s.id = exampleState3.activeId) =
      some (addMessageSessionUpdate "Hello" MessageRole.user
        (newMessageOf "Hello" MessageRole.user "u9" 5) 5 exampleEmptySession) ∧
     (addMessageSessionUpdate "Hello" MessageRole.user
        (newMessageOf "Hello" MessageRole.user "u9" 5) 5 exampleEmptySession).title =
      firstMessageTitle "Hello" ∧
     generateChatTitle (Except.error ()) = "New Chat" ∧
     generateChatTitle (Except.ok none) = "New Chat" ∧
     (∀ text, jsTrim text ≠ "" →
       generateChatTitle (Except.ok (some text)) = jsTrim text)) :=
  ⟨by decide, by decide, by decide, by decide,
   title_assignment_spec exampleState3 "Hello" "u9" 5 exampleEmptySession
     (by decide) (by decide) (by decide) (by decide)⟩

theorem textConcat_append (a b : List String) :
    textConcat (a ++ b) = textConcat a ++ textConcat b := by
  induction a with
  | nil => simp [textConcat]
  | cons x xs ih => simp [textConcat, ih, String.append_assoc]

/-- C1: the mid-range interval policy duplicates text.  With a render
interval of 15 ms (the FAST streaming speed) and the single delta "a", the
throttler emits "a" immediately and then re-emits the never-cleared buffer
at stream end: the concatenation of the onChunk texts is "aa", not the
input concatenation "a". -/
theorem openAIStreaming_duplicates_midrange_interval :
    generateOpenAIStreamingResponse (some 15) 0 [ThrottleEv.delta "a" 1] = ["a", "a"] ∧
    textConcat (generateOpenAIStreamingResponse (some 15) 0 [ThrottleEv.delta "a" 1]) ≠
      textConcat (traceDeltas [ThrottleEv.delta "a" 1]) := by
  constructor <;> decide

/-- Invariant of the animation-frame policy: flushed text plus buffered text
equals the input text. -/
theorem af_fold_invariant (ri : Nat) (trace : List ThrottleEv) :
    ∀ st : ThrottleState,
      textConcat ((trace.foldl (throttleStep true ri) st).emitted) ++
        textConcat ((trace.foldl (throttleStep true ri) st).pendingChunks) =
      textConcat st.emitted ++ textConcat st.pendingChunks ++
        textConcat (traceDeltas trace) := by
  induction trace with
  | nil =>
      intro st
      simp [traceDeltas, textConcat]
  | cons ev rest ih =>
      intro st
      cases ev with
      | frame =>
          simp only [List.foldl_cons]
          rw [ih]
          have hstep : textConcat ((throttleStep true ri st ThrottleEv.frame).emitted) ++
              textConcat ((throttleStep true ri st ThrottleEv.frame).pendingChunks) =
              textConcat st.emitted ++ textConcat st.pendingChunks := by
            by_cases hp : st.pendingChunks = []
            · simp [throttleStep, hp]
            · simp [throttleStep, hp, textConcat_append, textConcat, String.append_assoc]
          rw [show traceDeltas (ThrottleEv.frame :: rest) = traceDeltas rest from rfl]
          rw [hstep]
      | delta content time =>
          simp only [List.foldl_cons]
          rw [ih]
          have hdeltas : traceDeltas (ThrottleEv.delta content time :: rest) =
              content :: traceDeltas rest := rfl
          rw [hdeltas]
          by_cases hc : content = ""
          · subst hc
            simp [throttleStep, textConcat]
          · have hstep : textConcat ((throttleStep true ri st (ThrottleEv.delta content time)).emitted) ++
                textConcat ((throttleStep true ri st (ThrottleEv.delta content time)).pendingChunks) =
                textConcat st.emitted ++ (textConcat st.pendingChunks ++ content) := by
              simp [throttleStep, hc, textConcat_append, textConcat, String.append_assoc]
            rw [hstep]
            simp [textConcat, String.append_assoc]

/-- Invariant of the interval policy above 15 ms: flushed text plus the
buffer equals the input text. -/
theorem interval_fold_invariant (ri : Nat) (h15 : ¬ ri ≤ 15) (trace : List ThrottleEv) :
    ∀ st : ThrottleState,
      textConcat ((trace.foldl (throttleStep false ri) st).emitted) ++
        (trace.foldl (throttleStep false ri) st).bufferText =
      textConcat st.emitted ++ st.bufferText ++ textConcat (traceDeltas trace) := by
  induction trace with
  | nil =>
      intro st
      simp [traceDeltas, textConcat]
  | cons ev rest ih =>
      intro st
      cases ev with
      | frame =>
          simp only [List.foldl_cons]
          rw [ih]
          rw [show traceDeltas (ThrottleEv.frame :: rest) = traceDeltas rest from rfl]
          rw [show throttleStep false ri st ThrottleEv.frame = st from rfl]
      | delta content time =>
          simp only [List.foldl_cons]
          rw [ih]
          have hdeltas : traceDeltas (ThrottleEv.delta content time :: rest) =
              content :: traceDeltas rest := rfl
          rw [hdeltas]
          by_cases hc : content = ""
          · subst hc
            simp [throttleStep, textConcat]
          · have hstep : textConcat ((throttleStep false ri st (ThrottleEv.delta content time)).emitted) ++
                (throttleStep false ri st (ThrottleEv.delta content time)).bufferText =
                textConcat st.emitted ++ (st.bufferText ++ content) := by
              by_cases htime : st.lastRenderTime + ri < time
              · by_cases hbuf : st.bufferText ++ content = ""
                · simp [throttleStep, hc, h15, htime, hbuf, textConcat_append, textConcat]
                · simp [throttleStep, hc, h15, htime, hbuf, textConcat_append, textConcat,
                    String.append_assoc]
              · simp [throttleStep, hc, h15, htime]
            rw [hstep]
            simp [textConcat, String.append_assoc]

/-- Under the animation-frame policy (render interval at most 5 ms after
defaulting), the concatenation of all emitted texts equals the concatenation
of the provider deltas, for every interleaving of frames. -/
theorem openAIStreaming_af_preserves (renderInterval : Option Nat)
    (startTime : Nat) (trace : List ThrottleEv)
    (h : renderIntervalOf renderInterval ≤ 5) :
    textConcat (generateOpenAIStreamingResponse renderInterval startTime trace) =
      textConcat (traceDeltas trace) := by
  have hinv := af_fold_invariant (renderIntervalOf renderInterval) trace
    { pendingChunks := [], bufferText := "", lastRenderTime := startTime, emitted := [] }
  have hdec : decide (renderIntervalOf renderInterval ≤ 5) = true := decide_eq_true h
  simp only [generateOpenAIStreamingResponse, hdec]
  by_cases hp : (trace.foldl (throttleStep true (renderIntervalOf renderInterval))
      { pendingChunks := [], bufferText := "", lastRenderTime := startTime,
        emitted := [] }).pendingChunks = []
  · rw [if_pos trivial, if_neg (fun hne => hne hp)]
    rw [hp] at hinv
    simpa [textConcat] using hinv
  · rw [if_pos trivial, if_pos hp]
    rw [textConcat_append]
    simpa [textConcat] using hinv

/-- Above 15 ms the interval policy also preserves the concatenation: the
final forced flush emits exactly the remainder. -/
theorem openAIStreaming_slow_interval_preserves (renderInterval : Option Nat)
    (startTime : Nat) (trace : List ThrottleEv)
    (h5 : ¬ renderIntervalOf renderInterval ≤ 5)
    (h15 : ¬ renderIntervalOf renderInterval ≤ 15) :
    textConcat (generateOpenAIStreamingResponse renderInterval startTime trace) =
      textConcat (traceDeltas trace) := by
  have hinv := interval_fold_invariant (renderIntervalOf renderInterval) h15 trace
    { pendingChunks := [], bufferText := "", lastRenderTime := startTime, emitted := [] }
  have hdec : decide (renderIntervalOf renderInterval ≤ 5) = false :=
    decide_eq_false h5
  simp only [generateOpenAIStreamingResponse, hdec]
  by_cases hb : (trace.foldl (throttleStep false (renderIntervalOf renderInterval))
      { pendingChunks := [], bufferText := "", lastRenderTime := startTime,
        emitted := [] }).bufferText = ""
  · rw [if_neg Bool.false_ne_true, if_neg (fun hne => hne hb)]
    rw [hb] at hinv
    simpa [textConcat] using hinv
  · rw [if_neg Bool.false_ne_true, if_pos hb]
    rw [textConcat_append]
    simpa [textConcat] using hinv

end Integrator
